import Mathlib

/-!
Verification development for the tennis-app backend (`backend.py`).

Python strings are modelled as `List Char` (`Str`), so that every string
operation used by the backend (split on a comma, strip, upper/lower-casing,
lexicographic comparison) is a structurally recursive Lean function that the
kernel can evaluate.  Python dicts holding fixed keys are modelled as Lean
structures; `dict.get(k, default)` on an always-present key becomes a plain
field access.  Python exceptions become `Except`.
-/

namespace Tennis

/-- Characters matched by Python's regex class `\s` (ASCII range): space, tab,
newline, carriage return, vertical tab (11) and form feed (12). -/
def isSpaceChar (c : Char) : Bool :=
  c = ' ' || c = '\t' || c = '\n' || c = '\r' || c.toNat = 11 || c.toNat = 12

/-- Characters matched by the regex class `\d` (decimal digits). -/
def isDigitChar (c : Char) : Bool :=
  48 ≤ c.toNat && c.toNat ≤ 57

/-- Characters matched by the regex class `[:\-]` of `parse_score_sets`. -/
def isSepChar (c : Char) : Bool :=
  c = ':' || c = '-'

/-- Python strings, modelled as lists of characters. -/
abbrev Str := List Char

/-- Python's `str.strip()` (leading and trailing whitespace removed). -/
def trimStr (s : Str) : Str :=
  ((s.dropWhile isSpaceChar).reverse.dropWhile isSpaceChar).reverse

/-- Python's `str.upper()` on the ASCII strings used by the backend. -/
def toUpperStr (s : Str) : Str := s.map Char.toUpper

/-- Python's `str.lower()` on the ASCII strings used by the backend. -/
def toLowerStr (s : Str) : Str := s.map Char.toLower

/-- Numeric value of a digit string, as computed by Python's `int(...)`. -/
def digitsVal (ds : Str) : Nat :=
  ds.foldl (fun acc c => 10 * acc + (c.toNat - 48)) 0

/-- Python's `s.split(",")`: split at every comma; `"".split(",") == [""]`. -/
def splitComma : Str → List Str
  | [] => [[]]
  | c :: rest =>
    match splitComma rest with
    | [] => [[]]
    | seg :: segs => if c = ',' then [] :: seg :: segs else (c :: seg) :: segs

/-- One segment of `parse_score_sets`: the deterministic reading of
`re.match(r"\s*(\d+)\s*[:\-]\s*(\d+)\s*$", part)`.  The character classes
`\s`, `\d`, `[:\-]` are pairwise disjoint, so the backtracking regex is
equivalent to this greedy scan (and `$` with a trailing `\s*` is equivalent
to end-of-string). -/
def parseSetSegment (cs : Str) : Option (Nat × Nat) :=
  let t1 := cs.dropWhile isSpaceChar
  let d1 := t1.takeWhile isDigitChar
  let t2 := t1.dropWhile isDigitChar
  if d1.isEmpty then none
  else
    match t2.dropWhile isSpaceChar with
    | [] => none
    | sep :: t3 =>
      if isSepChar sep then
        let t4 := t3.dropWhile isSpaceChar
        let d2 := t4.takeWhile isDigitChar
        let t5 := t4.dropWhile isDigitChar
        if d2.isEmpty then none
        else if (t5.dropWhile isSpaceChar).isEmpty then
          some (digitsVal d1, digitsVal d2)
        else none
      else none

/-- `parse_score_sets` from `backend.py`: split the score on commas and keep
the segments matching the set pattern, in order. -/
def parse_score_sets (score : Str) : List (Nat × Nat) :=
  (splitComma score).filterMap parseSetSegment

/-- The set-win tally loop of `determine_winner_from_score`. -/
def setWins (sets : List (Nat × Nat)) : Nat × Nat :=
  sets.foldl
    (fun w p =>
      if p.1 > p.2 then (w.1 + 1, w.2)
      else if p.2 > p.1 then (w.1, w.2 + 1)
      else w)
    (0, 0)

/-- `determine_winner_from_score` from `backend.py`. -/
def determine_winner_from_score (player_a_id player_b_id : Str) (score : Str) :
    Option Str :=
  let w := setWins (parse_score_sets score)
  if w.1 = w.2 then none
  else if w.1 > w.2 then some player_a_id
  else some player_b_id

/-- A player record (`store["players"]` entry); only the fields read by the
operations under study are modelled. -/
structure Player where
  id : Str
  display_name : Str
  group : Str
  ntrp : Str
  active : Bool
  tac_verified : Bool
deriving DecidableEq

/-- A match record (`store["matches"]` entry). -/
structure Match where
  id : Str
  season : Str
  stage : Str
  status : Str
  player_a_id : Str
  player_b_id : Str
  winner_id : Str
  score : Str
deriving DecidableEq

/-- A tournament-match record (`store["tournament_matches"]` entry); `slot` is
stored as an integer (the code always writes `int(payload["slot"])`). -/
structure TournamentMatch where
  id : Str
  season : Str
  round : Str
  slot : Int
  player1_id : Str
  player2_id : Str
  winner_id : Str
  score : Str
  date : Str
  updated_at : Str
deriving DecidableEq

/-- An account record (`store["accounts"]` entry). -/
structure Account where
  id : Str
  player_id : Str
  display_name : Str
deriving DecidableEq

/-- The persisted document (`store.json`), restricted to the collections the
verified operations touch. -/
structure Store where
  players : List Player
  matches' : List Match
  tournament_matches : List TournamentMatch
  accounts : List Account
deriving DecidableEq

/-- `update_store` from `backend.py`: under the global lock, load the
document, run the mutator, and persist only if the mutator did not raise.
A raising mutator is an `Except.error`; the pair returned here is
(result handed to the caller, document persisted on disk afterwards). -/
def update_store {ε α : Type} (persisted : Store)
    (mutator : Store → Except ε (α × Store)) : Except ε α × Store :=
  match mutator persisted with
  | .ok (a, s) => (.ok a, s)
  | .error e => (.error e, persisted)

/-- One standings row of `compute_standings` (dict values of `table`), with
`rank := 0` before rank assignment. -/
structure Row where
  player_id : Str
  name : Str
  group : Str
  ntrp : Str
  played : Nat
  won : Nat
  lost : Nat
  sets_won : Nat
  sets_lost : Nat
  points : Nat
  paid : Bool
  rank : Nat
deriving DecidableEq

/-- The zero-initialized row seeded for player `p`. -/
def initRow (p : Player) : Row :=
  { player_id := p.id, name := p.display_name, group := p.group, ntrp := p.ntrp,
    played := 0, won := 0, lost := 0, sets_won := 0, sets_lost := 0, points := 0,
    paid := p.tac_verified, rank := 0 }

/-- Python-dict assignment `table[key] = row`: replace in place if the key is
present (keeping its position), otherwise append. -/
def upsertRow (t : List Row) (r : Row) : List Row :=
  if t.any (fun x => x.player_id == r.player_id) then
    t.map (fun x => if x.player_id == r.player_id then r else x)
  else t ++ [r]

/-- Membership test `pid in table`. -/
def hasRow (t : List Row) (pid : Str) : Bool :=
  t.any (fun x => x.player_id == pid)

/-- Action of `table[pid] = f(table[pid])` on a single row. -/
def updRow (pid : Str) (f : Row → Row) (x : Row) : Row :=
  if x.player_id == pid then f x else x

/-- In-place update `table[pid] = f(table[pid])`. -/
def updateRow (t : List Row) (pid : Str) (f : Row → Row) : List Row :=
  t.map (updRow pid f)

/-- `table[...]["played"] += 1`. -/
def bumpPlayed (x : Row) : Row := { x with played := x.played + 1 }

/-- `won += 1; points += 3` (the winner's credits). -/
def bumpWin (x : Row) : Row := { x with won := x.won + 1, points := x.points + 3 }

/-- `lost += 1; points += 1` (the loser's credits). -/
def bumpLoss (x : Row) : Row := { x with lost := x.lost + 1, points := x.points + 1 }

/-- Side A's per-set accumulation `sets_won += s1; sets_lost += s2`. -/
def bumpSetsA (s : Nat × Nat) (x : Row) : Row :=
  { x with sets_won := x.sets_won + s.1, sets_lost := x.sets_lost + s.2 }

/-- Side B's per-set accumulation `sets_won += s2; sets_lost += s1`. -/
def bumpSetsB (s : Nat × Nat) (x : Row) : Row :=
  { x with sets_won := x.sets_won + s.2, sets_lost := x.sets_lost + s.1 }

/-- The seeding loop of `compute_standings` (`for p in players: table[...]`). -/
def seedTable (players : List Player) : List Row :=
  players.foldl (fun t p => upsertRow t (initRow p)) []

/-- The filter chain of the match-scan loop of `compute_standings`:
stage is `REGULAR`, status is `completed`, the season matches the target
unless the target is falsy (`if season and m.get("season") != season`),
and both players are seeded. -/
def matchQualifies (t : List Row) (season : Str) (m : Match) : Bool :=
  m.stage == ("REGULAR").data && m.status == ("completed").data &&
    (season.isEmpty || m.season == season) &&
    hasRow t m.player_a_id && hasRow t m.player_b_id

/-- The per-match update block of `compute_standings`. -/
def applyMatch (t : List Row) (m : Match) : List Row :=
  let t2 := updateRow (updateRow t m.player_a_id bumpPlayed) m.player_b_id bumpPlayed
  let t3 :=
    if m.winner_id == m.player_a_id then
      updateRow (updateRow t2 m.player_a_id bumpWin) m.player_b_id bumpLoss
    else if m.winner_id == m.player_b_id then
      updateRow (updateRow t2 m.player_b_id bumpWin) m.player_a_id bumpLoss
    else t2
  (parse_score_sets m.score).foldl
    (fun t' s =>
      updateRow (updateRow t' m.player_a_id (bumpSetsA s)) m.player_b_id (bumpSetsB s))
    t3

/-- The per-match update of `compute_standings` as it acts on one row of the
table (the table update is a pointwise map). -/
def applyMatchRow (m : Match) (r : Row) : Row :=
  let r2 := updRow m.player_b_id bumpPlayed (updRow m.player_a_id bumpPlayed r)
  let r3 :=
    if m.winner_id == m.player_a_id then
      updRow m.player_b_id bumpLoss (updRow m.player_a_id bumpWin r2)
    else if m.winner_id == m.player_b_id then
      updRow m.player_a_id bumpLoss (updRow m.player_b_id bumpWin r2)
    else r2
  (parse_score_sets m.score).foldl
    (fun r' s => updRow m.player_b_id (bumpSetsB s) (updRow m.player_a_id (bumpSetsA s) r'))
    r3

/-- The match-scan loop of `compute_standings`. -/
def scanMatches (t : List Row) (season : Str) (ms : List Match) : List Row :=
  ms.foldl (fun t' m => if matchQualifies t' season m then applyMatch t' m else t') t

/-- Set differential `sets_won - sets_lost` (a Python int, possibly negative). -/
def setDiff (r : Row) : Int :=
  (r.sets_won : Int) - (r.sets_lost : Int)

/-- Python's `<` on strings: lexicographic comparison by code point. -/
def strLt : Str → Str → Bool
  | [], [] => false
  | [], _ :: _ => true
  | _ :: _, [] => false
  | a :: as, b :: bs => if a < b then true else if b < a then false else strLt as bs

/-- `r1` sorts no later than `r2` under
`rows.sort(key=(points, set diff, won, name.lower()), reverse=True)`:
lexicographically greater-or-equal sort keys come first. -/
def rowGE (r1 r2 : Row) : Bool :=
  if r1.points ≠ r2.points then decide (r2.points < r1.points)
  else if setDiff r1 ≠ setDiff r2 then decide (setDiff r2 < setDiff r1)
  else if r1.won ≠ r2.won then decide (r2.won < r1.won)
  else !(strLt (toLowerStr r1.name) (toLowerStr r2.name))

/-- `rowGE` as a proposition, for use with `List.insertionSort`. -/
def RowLE (r1 r2 : Row) : Prop := rowGE r1 r2 = true

instance : DecidableRel RowLE := fun r1 r2 =>
  inferInstanceAs (Decidable (rowGE r1 r2 = true))

/-- The `for i, row in enumerate(rows): row["rank"] = i + 1` loop. -/
def assignRanks : Nat → List Row → List Row
  | _, [] => []
  | i, r :: rs => { r with rank := i + 1 } :: assignRanks (i + 1) rs

/-- The player-filter lines of `compute_standings`: active players, further
restricted by group unless the group filter is falsy or `"ALL"`. -/
def seededPlayers (store : Store) (group : Str) : List Player :=
  let players := store.players.filter (fun p => p.active)
  if !group.isEmpty && group ≠ ("ALL").data then
    players.filter (fun p => p.group == group)
  else players

/-- `compute_standings` from `backend.py`: seed rows for the filtered
players, scan the matches, sort, and assign ranks.  Python's `list.sort`
with `reverse=True` is a stable descending sort; a stable sort's output is
uniquely determined by the comparator and the input order, so it is embedded
as a stable insertion sort over the comparator `rowGE` (greater-or-equal
keys first, original order kept among equal keys). -/
def compute_standings (store : Store) (season : Str) (group : Str) : List Row :=
  assignRanks 0 (List.insertionSort RowLE
    (scanMatches (seedTable (seededPlayers store group)) season store.matches'))

/-- The raise sites of `validate_match_payload`, in source order:
"Both players are required.", "Players must be different.",
"Invalid player ID.", "Winner must be one of the selected players.",
"Score is required.". -/
inductive VErr where
  | playersRequired
  | playersMustDiffer
  | invalidPlayerId
  | invalidWinner
  | scoreRequired
deriving DecidableEq

/-- The JSON body handed to `validate_match_payload`.  A missing key and an
empty value are indistinguishable to the code (`payload.get(k) or default`
treats both as falsy), so optional string fields are plain `Str` with `[]`
for absent; `created_by` uses `dict.get` with a default, hence `Option`. -/
structure MatchPayload where
  season : Str
  stage : Str
  date : Str
  player_a_id : Str
  player_b_id : Str
  winner_id : Str
  score : Str
  created_by : Option Str
deriving DecidableEq

/-- The normalized match record returned by `validate_match_payload`
(without the `id`/`created_at` fields added later by the callers). -/
structure ValidatedMatch where
  season : Str
  stage : Str
  date : Str
  player_a_id : Str
  player_b_id : Str
  winner_id : Str
  score : Str
  status : Str
  created_by : Str
deriving DecidableEq

/-- `validate_match_payload` from `backend.py`.  `defaultSeason` stands for
the process-wide `DEFAULT_SEASON` and `today` for
`datetime.now().strftime("%Y-%m-%d")`, both passed explicitly. -/
def validate_match_payload (defaultSeason today : Str) (payload : MatchPayload)
    (store : Store) (admin : Bool) : Except VErr ValidatedMatch :=
  let season := trimStr (if payload.season.isEmpty then defaultSeason else payload.season)
  let stage := toUpperStr (trimStr (if payload.stage.isEmpty then ("REGULAR").data else payload.stage))
  let date := trimStr (if payload.date.isEmpty then today else payload.date)
  let player_a_id := trimStr payload.player_a_id
  let player_b_id := trimStr payload.player_b_id
  let winner_id := trimStr payload.winner_id
  let score := trimStr payload.score
  if player_a_id.isEmpty || player_b_id.isEmpty then .error .playersRequired
  else if player_a_id = player_b_id then .error .playersMustDiffer
  else if !(store.players.any (fun p => p.id == player_a_id)) ||
      !(store.players.any (fun p => p.id == player_b_id)) then .error .invalidPlayerId
  else
    match (if winner_id.isEmpty then
        determine_winner_from_score player_a_id player_b_id score
      else some winner_id) with
    | none => .error .invalidWinner
    | some w =>
      if w ≠ player_a_id ∧ w ≠ player_b_id then .error .invalidWinner
      else if score.isEmpty then .error .scoreRequired
      else .ok
        { season := season, stage := stage, date := date,
          player_a_id := player_a_id, player_b_id := player_b_id,
          winner_id := w, score := score, status := ("completed").data,
          created_by :=
            payload.created_by.getD (if admin then ("admin").data else ("player").data) }

/-- The raise site of `api_admin_delete_player`'s mutator. -/
inductive DelErr where
  | playerNotFound
deriving DecidableEq

/-- The mutator of `api_admin_delete_player`: drop the player, raise if
nothing was dropped, then drop matches and tournament matches having the
player on either side and accounts bound to the player. -/
def api_admin_delete_player (player_id : Str) (store : Store) :
    Except DelErr (Unit × Store) :=
  let players2 := store.players.filter (fun p => p.id != player_id)
  if players2.length = store.players.length then .error .playerNotFound
  else .ok ((),
    { store with
      players := players2,
      matches' := store.matches'.filter
        (fun m => m.player_a_id != player_id && m.player_b_id != player_id),
      tournament_matches := store.tournament_matches.filter
        (fun t => t.player1_id != player_id && t.player2_id != player_id),
      accounts := store.accounts.filter (fun a => a.player_id != player_id) })

/-- The JSON body of `api_admin_upsert_tournament_match` after its
required-fields check; `slot` is an integer (`int(payload["slot"])` and the
stored `int(m.get("slot", -1))` are both modelled at type `Int`). -/
structure TPayload where
  season : Str
  round : Str
  slot : Int
  player1_id : Str
  player2_id : Str
  winner_id : Str
  score : Str
  date : Str
deriving DecidableEq

/-- The field-overwrite block of the tournament upsert: normalized fields
written over a record with identifier `idv`; `now` is `utc_now()`. -/
def normTM (idv now : Str) (p : TPayload) : TournamentMatch :=
  { id := idv, season := trimStr p.season, round := toUpperStr (trimStr p.round),
    slot := p.slot, player1_id := trimStr p.player1_id,
    player2_id := trimStr p.player2_id, winner_id := trimStr p.winner_id,
    score := trimStr p.score, date := trimStr p.date, updated_at := now }

/-- The lookup-then-overwrite-or-append loop of the tournament upsert: the
first record whose stored `(season, round, slot)` equals the raw payload
triple is overwritten in place; otherwise a fresh record is appended. -/
def upsertTM (freshId now : Str) (p : TPayload) :
    List TournamentMatch → TournamentMatch × List TournamentMatch
  | [] => let r := normTM freshId now p; (r, [r])
  | m :: ms =>
    if m.season == p.season && m.round == p.round && m.slot == p.slot then
      (normTM m.id now p, normTM m.id now p :: ms)
    else
      ((upsertTM freshId now p ms).1, m :: (upsertTM freshId now p ms).2)

/-- The mutator of `api_admin_upsert_tournament_match` (it never raises once
the required keys are present, which the `TPayload` type guarantees).
`freshId` stands for `new_id("t")`. -/
def api_admin_upsert_tournament_match (freshId now : Str) (p : TPayload)
    (store : Store) : TournamentMatch × Store :=
  let res := upsertTM freshId now p store.tournament_matches
  (res.1, { store with tournament_matches := res.2 })

/-- Progress of one request thread through the `with LOCK:` block of
`update_store`: not yet started, lock acquired, document loaded (the loaded
snapshot is recorded), mutated document persisted, lock released. -/
inductive GatePhase (σ : Type) where
  | idle
  | locked
  | loaded (snapshot : σ)
  | persisted
  | finished
deriving DecidableEq

/-- Global state of two concurrent `update_store` calls: who holds `LOCK`,
the persisted document, and each thread's phase. -/
structure GateState (σ : Type) where
  lock : Option Bool
  file : σ
  th0 : GatePhase σ
  th1 : GatePhase σ
deriving DecidableEq

/-- Phase of thread `i`. -/
def GateState.phase (s : GateState σ) (i : Bool) : GatePhase σ :=
  if i then s.th1 else s.th0

/-- Replace the phase of thread `i`. -/
def GateState.setPhase (s : GateState σ) (i : Bool) (ph : GatePhase σ) : GateState σ :=
  if i then { s with th1 := ph } else { s with th0 := ph }

/-- The mutation applied by thread `i`. -/
def gateMut (m0 m1 : σ → σ) (i : Bool) : σ → σ :=
  if i then m1 else m0

/-- Interleaving semantics of two concurrent `update_store` calls with
mutators `m0` and `m1`: a thread must hold the single global `LOCK` to load
the document, to persist it, and to release; mutation happens between load
and persist on the loaded snapshot. -/
inductive GateStep (m0 m1 : σ → σ) : GateState σ → GateState σ → Prop where
  | acquire (s : GateState σ) (i : Bool) :
      s.lock = none → s.phase i = .idle →
      GateStep m0 m1 s (GateState.setPhase { s with lock := some i } i .locked)
  | load (s : GateState σ) (i : Bool) :
      s.lock = some i → s.phase i = .locked →
      GateStep m0 m1 s (s.setPhase i (.loaded s.file))
  | persist (s : GateState σ) (i : Bool) (snap : σ) :
      s.lock = some i → s.phase i = .loaded snap →
      GateStep m0 m1 s
        (GateState.setPhase { s with file := gateMut m0 m1 i snap } i .persisted)
  | release (s : GateState σ) (i : Bool) :
      s.lock = some i → s.phase i = .persisted →
      GateStep m0 m1 s (GateState.setPhase { s with lock := none } i .finished)

/-- Initial state: document `d` on disk, lock free, both threads idle. -/
def gateInit (d : σ) : GateState σ :=
  { lock := none, file := d, th0 := .idle, th1 := .idle }

/-- States reachable by interleaving the two `update_store` calls. -/
def GateReachable (m0 m1 : σ → σ) (d : σ) (s : GateState σ) : Prop :=
  Relation.ReflTransGen (GateStep m0 m1) (gateInit d) s

/-- A thread is inside the critical section (holds work in progress under
the lock). -/
def inCritical : GatePhase σ → Prop
  | .locked => True
  | .loaded _ => True
  | .persisted => True
  | _ => False

/-! ### Lemmas about the string comparator -/

theorem strLt_asymm (a : Str) : ∀ b, strLt a b = true → strLt b a = false := by
  induction a with
  | nil => intro b h; cases b <;> simp [strLt] at h ⊢
  | cons x xs ih =>
    intro b h
    cases b with
    | nil => simp [strLt] at h
    | cons y ys =>
      simp only [strLt] at h ⊢
      by_cases h1 : x < y
      · simp [h1, asymm h1]
      · by_cases h2 : y < x
        · simp [h1, h2] at h
        · simp [h1, h2] at h ⊢
          exact ih ys h

theorem strLt_trans (a : Str) : ∀ b c, strLt a b = true → strLt b c = true →
    strLt a c = true := by
  induction a with
  | nil =>
    intro b c h1 h2
    cases b with
    | nil => simp [strLt] at h1
    | cons y ys => cases c with
      | nil => simp [strLt] at h2
      | cons z zs => simp [strLt]
  | cons x xs ih =>
    intro b c h1 h2
    cases b with
    | nil => simp [strLt] at h1
    | cons y ys =>
      cases c with
      | nil => simp [strLt] at h2
      | cons z zs =>
        simp only [strLt] at h1 h2 ⊢
        by_cases hxy : x < y
        · by_cases hyz : y < z
          · simp [lt_trans hxy hyz]
          · by_cases hzy : z < y
            · simp [hxy, hyz, hzy] at h2
            · have hyzeq : y = z := le_antisymm (not_lt.mp hzy) (not_lt.mp hyz)
              subst hyzeq
              simp [hxy]
        · by_cases hyx : y < x
          · simp [hxy, hyx] at h1
          · have hxyeq : x = y := le_antisymm (not_lt.mp hyx) (not_lt.mp hxy)
            subst hxyeq
            by_cases hyz : x < z
            · simp [hyz]
            · by_cases hzy : z < x
              · simp [hyz, hzy] at h2
              · simp [hxy, hyz, hzy] at h1 h2 ⊢
                exact ih ys zs h1 h2

theorem strLt_eq_of_not (a : Str) : ∀ b, strLt a b = false → strLt b a = false →
    a = b := by
  induction a with
  | nil =>
    intro b h1 _
    cases b with
    | nil => rfl
    | cons y ys => simp [strLt] at h1
  | cons x xs ih =>
    intro b h1 h2
    cases b with
    | nil => simp [strLt] at h2
    | cons y ys =>
      simp only [strLt] at h1 h2
      by_cases hxy : x < y
      · simp [hxy] at h1
      · by_cases hyx : y < x
        · simp [hyx] at h2
        · have hxyeq : x = y := le_antisymm (not_lt.mp hyx) (not_lt.mp hxy)
          subst hxyeq
          simp [hxy] at h1 h2
          rw [ih ys h1 h2]

theorem strLt_false_trans (a b c : Str) (h1 : strLt a b = false)
    (h2 : strLt b c = false) : strLt a c = false := by
  by_cases hba : strLt b a = true
  · by_cases hac : strLt a c = true
    · exact absurd (strLt_trans b a c hba hac) (by simp [h2])
    · simpa using hac
  · have hab : a = b := strLt_eq_of_not a b h1 (by simpa using hba)
    subst hab
    exact h2

/-! ### Lemmas about the row comparator and rank assignment -/

theorem rowGE_iff (r1 r2 : Row) : rowGE r1 r2 = true ↔
    (r2.points < r1.points ∨ (r1.points = r2.points ∧
      (setDiff r2 < setDiff r1 ∨ (setDiff r1 = setDiff r2 ∧
        (r2.won < r1.won ∨ (r1.won = r2.won ∧
          strLt (toLowerStr r1.name) (toLowerStr r2.name) = false)))))) := by
  unfold rowGE
  split_ifs with hp hd hw
  · simp [hp]
  · rw [not_ne_iff] at hp
    simp [hp, hd]
  · rw [not_ne_iff] at hp hd
    simp [hp, hd, hw]
  · simp only [not_not] at hp hd hw
    simp [hp, hd, hw, Bool.not_eq_true']

theorem rowGE_total (r1 r2 : Row) : rowGE r1 r2 = true ∨ rowGE r2 r1 = true := by
  rw [rowGE_iff, rowGE_iff]
  by_cases hn : strLt (toLowerStr r1.name) (toLowerStr r2.name) = true
  · have := strLt_asymm _ _ hn
    rcases Nat.lt_trichotomy r1.points r2.points with h | h | h <;>
      rcases lt_trichotomy (setDiff r1) (setDiff r2) with h' | h' | h' <;>
      rcases Nat.lt_trichotomy r1.won r2.won with h'' | h'' | h'' <;>
      first
        | (left; omega)
        | (right; omega)
        | (left; right; exact ⟨h, by omega⟩)
        | (right; right; exact ⟨h.symm, by omega⟩)
        | (right; right; refine ⟨h.symm, Or.inr ⟨h'.symm, Or.inr ⟨h''.symm, this⟩⟩⟩)
  · have hn' : strLt (toLowerStr r1.name) (toLowerStr r2.name) = false := by
      simpa using hn
    rcases Nat.lt_trichotomy r1.points r2.points with h | h | h <;>
      rcases lt_trichotomy (setDiff r1) (setDiff r2) with h' | h' | h' <;>
      rcases Nat.lt_trichotomy r1.won r2.won with h'' | h'' | h'' <;>
      first
        | (left; omega)
        | (right; omega)
        | (left; right; exact ⟨h, by omega⟩)
        | (right; right; exact ⟨h.symm, by omega⟩)
        | (left; right; refine ⟨h, Or.inr ⟨h', Or.inr ⟨h'', hn'⟩⟩⟩)

theorem rowGE_trans (r1 r2 r3 : Row) (h12 : rowGE r1 r2 = true)
    (h23 : rowGE r2 r3 = true) : rowGE r1 r3 = true := by
  rw [rowGE_iff] at h12 h23 ⊢
  rcases h12 with h12 | ⟨hp12, h12⟩
  · rcases h23 with h23 | ⟨hp23, _⟩
    · left; omega
    · left; omega
  · rcases h23 with h23 | ⟨hp23, h23⟩
    · left; omega
    · right
      refine ⟨hp12.trans hp23, ?_⟩
      rcases h12 with h12 | ⟨hd12, h12⟩
      · rcases h23 with h23 | ⟨hd23, _⟩
        · left; omega
        · left; omega
      · rcases h23 with h23 | ⟨hd23, h23⟩
        · left; omega
        · right
          refine ⟨hd12.trans hd23, ?_⟩
          rcases h12 with h12 | ⟨hw12, h12⟩
          · rcases h23 with h23 | ⟨hw23, _⟩
            · left; omega
            · left; omega
          · rcases h23 with h23 | ⟨hw23, h23⟩
            · left; omega
            · right
              exact ⟨hw12.trans hw23, strLt_false_trans _ _ _ h12 h23⟩

instance : IsTotal Row RowLE := ⟨rowGE_total⟩

instance : IsTrans Row RowLE := ⟨rowGE_trans⟩

theorem assignRanks_length (n : Nat) (l : List Row) :
    (assignRanks n l).length = l.length := by
  induction l generalizing n with
  | nil => rfl
  | cons r rs ih => simp [assignRanks, ih]

theorem assignRanks_get (l : List Row) : ∀ (n k : Nat)
    (hk : k < (assignRanks n l).length) (hk' : k < l.length),
    (assignRanks n l).get ⟨k, hk⟩ = { l.get ⟨k, hk'⟩ with rank := n + k + 1 } := by
  induction l with
  | nil => intro n k hk _; simp [assignRanks] at hk
  | cons r rs ih =>
    intro n k hk hk'
    cases k with
    | zero => rfl
    | succ k =>
      have := ih (n + 1) k (by simpa [assignRanks] using Nat.lt_of_succ_lt_succ hk)
        (Nat.lt_of_succ_lt_succ hk')
      simpa [assignRanks, Nat.add_assoc, Nat.add_comm 1 k] using this

theorem assignRanks_getElem (l : List Row) : ∀ (n k : Nat),
    (assignRanks n l)[k]? = Option.map (fun r => { r with rank := n + k + 1 }) l[k]? := by
  induction l with
  | nil => intro n k; simp [assignRanks]
  | cons r rs ih =>
    intro n k
    cases k with
    | zero => simp [assignRanks]
    | succ k =>
      simpa [assignRanks, Nat.add_assoc, Nat.add_comm 1 k] using ih (n + 1) k

/-! ### Concrete fixtures used by counterexamples and witnesses -/

/-- An active player displayed as "Alice". -/
def pAlice : Player :=
  { id := ("p1").data, display_name := ("Alice").data, group := ("D3").data,
    ntrp := ("3.5").data, active := true, tac_verified := false }

/-- An active player displayed as "Bob". -/
def pBob : Player :=
  { id := ("p2").data, display_name := ("Bob").data, group := ("D3").data,
    ntrp := ("3.5").data, active := true, tac_verified := false }

/-- A store holding exactly Alice and Bob and no matches. -/
def storeAB : Store :=
  { players := [pAlice, pBob], matches' := [], tournament_matches := [], accounts := [] }

/-- The row computed for Bob in `storeAB` standings. -/
def rowBob : Row :=
  { player_id := ("p2").data, name := ("Bob").data, group := ("D3").data,
    ntrp := ("3.5").data, played := 0, won := 0, lost := 0, sets_won := 0,
    sets_lost := 0, points := 0, paid := false, rank := 1 }

/-- The row computed for Alice in `storeAB` standings. -/
def rowAlice : Row :=
  { player_id := ("p1").data, name := ("Alice").data, group := ("D3").data,
    ntrp := ("3.5").data, played := 0, won := 0, lost := 0, sets_won := 0,
    sets_lost := 0, points := 0, paid := false, rank := 2 }

/-- Claim C1, counterexample: in a store holding only the active players
Alice and Bob and no matches, all four tie-break components except the name
are equal, the name "alice" is earlier than "bob" under case-insensitive
order, yet Bob receives rank 1 and Alice rank 2 — the alphabetically
earlier name gets the larger (worse) rank, refuting the claim as stated. -/
theorem standings_tiebreak_cex :
    compute_standings storeAB (("2026-S1").data) (("ALL").data) = [rowBob, rowAlice]
    ∧ rowAlice.points = rowBob.points ∧ setDiff rowAlice = setDiff rowBob
    ∧ rowAlice.won = rowBob.won
    ∧ strLt (toLowerStr rowAlice.name) (toLowerStr rowBob.name) = true
    ∧ ¬ rowAlice.rank < rowBob.rank := by
  refine ⟨by decide, by decide, by decide, by decide, by decide, by decide⟩

/-- Claim C1, amended: in the table returned by `compute_standings`, among
rows with equal points, equal set differential and equal wins, the row whose
display name is LATER under case-insensitive alphabetical order receives the
smaller (better) rank: `reverse=True` also reverses the name component, so
ties sort by name descending; ranks are the 1-based positions. -/
theorem standings_tiebreak_amended (store : Store) (season group : Str)
    (i j : Nat) (ri rj : Row)
    (hi : (compute_standings store season group)[i]? = some ri)
    (hj : (compute_standings store season group)[j]? = some rj)
    (hij : i < j)
    (hp : ri.points = rj.points) (hd : setDiff ri = setDiff rj)
    (hw : ri.won = rj.won) :
    strLt (toLowerStr ri.name) (toLowerStr rj.name) = false
    ∧ ri.rank = i + 1 ∧ rj.rank = j + 1 ∧ ri.rank < rj.rank := by
  have e : compute_standings store season group = assignRanks 0
      (List.insertionSort RowLE
        (scanMatches (seedTable (seededPlayers store group)) season store.matches')) := rfl
  rw [e, assignRanks_getElem] at hi hj
  rcases Option.map_eq_some'.mp hi with ⟨si, hsi, hri⟩
  rcases Option.map_eq_some'.mp hj with ⟨sj, hsj, hrj⟩
  rcases List.getElem?_eq_some.mp hsi with ⟨hilt, hgi⟩
  rcases List.getElem?_eq_some.mp hsj with ⟨hjlt, hgj⟩
  have hsorted : List.Sorted RowLE (List.insertionSort RowLE
      (scanMatches (seedTable (seededPlayers store group)) season store.matches')) :=
    List.sorted_insertionSort RowLE _
  have hrel : RowLE si sj := by
    have := @List.Sorted.rel_get_of_lt _ _ _ hsorted ⟨i, hilt⟩ ⟨j, hjlt⟩
      (by simpa using hij)
    simpa [List.get_eq_getElem, hgi, hgj] using this
  have hfields : ri.points = si.points ∧ ri.won = si.won ∧ ri.name = si.name ∧
      ri.sets_won = si.sets_won ∧ ri.sets_lost = si.sets_lost ∧ ri.rank = i + 1 := by
    subst hri; simp
  have hfields' : rj.points = sj.points ∧ rj.won = sj.won ∧ rj.name = sj.name ∧
      rj.sets_won = sj.sets_won ∧ rj.sets_lost = sj.sets_lost ∧ rj.rank = j + 1 := by
    subst hrj; simp
  obtain ⟨ep, ew, en, esw, esl, er⟩ := hfields
  obtain ⟨ep', ew', en', esw', esl', er'⟩ := hfields'
  have hdiff : setDiff si = setDiff sj := by
    unfold setDiff at hd ⊢
    rw [← esw, ← esl, ← esw', ← esl']
    exact hd
  have hge := rowGE_iff si sj |>.mp hrel
  have hnames : strLt (toLowerStr si.name) (toLowerStr sj.name) = false := by
    rcases hge with h | ⟨_, h⟩
    · omega
    · rcases h with h | ⟨_, h⟩
      · omega
      · rcases h with h | ⟨_, h⟩
        · omega
        · exact h
  refine ⟨?_, er, er', by omega⟩
  rw [en, en']
  exact hnames

/-- Witness for `standings_tiebreak_amended` at the concrete store
`storeAB`: Bob (later name) is row 0 with rank 1, Alice row 1 with rank 2. -/
theorem standings_tiebreak_amended_witness :
    strLt (toLowerStr rowBob.name) (toLowerStr rowAlice.name) = false
    ∧ rowBob.rank = 0 + 1 ∧ rowAlice.rank = 1 + 1 ∧ rowBob.rank < rowAlice.rank :=
  standings_tiebreak_amended storeAB (("2026-S1").data) (("ALL").data) 0 1
    rowBob rowAlice (by decide) (by decide) (by decide) (by decide) (by decide)
    (by decide)

/-! ### Winner resolver -/

theorem setWins_foldl (l : List (Nat × Nat)) : ∀ w : Nat × Nat,
    List.foldl
      (fun w p =>
        if p.1 > p.2 then (w.1 + 1, w.2)
        else if p.2 > p.1 then (w.1, w.2 + 1)
        else w) w l
    = (w.1 + l.countP (fun p => decide (p.2 < p.1)),
       w.2 + l.countP (fun p => decide (p.1 < p.2))) := by
  induction l with
  | nil => intro w; simp
  | cons p l ih =>
    intro w
    rw [List.foldl_cons, List.countP_cons, List.countP_cons]
    by_cases h1 : p.2 < p.1
    · rw [if_pos h1, ih, Prod.ext_iff]
      have h2 : ¬ p.1 < p.2 := Nat.lt_asymm h1
      constructor <;> simp [h1, h2] <;> omega
    · by_cases h2 : p.1 < p.2
      · rw [if_neg h1, if_pos h2, ih, Prod.ext_iff]
        constructor <;> simp [h1, h2] <;> omega
      · rw [if_neg h1, if_neg h2, ih, Prod.ext_iff]
        constructor <;> simp [h1, h2] <;> omega

theorem setWins_eq (l : List (Nat × Nat)) :
    setWins l = (l.countP (fun p => decide (p.2 < p.1)),
      l.countP (fun p => decide (p.1 < p.2))) := by
  simpa using setWins_foldl l (0, 0)

/-- Claim C5: `resolveWinner` counts one set win per parsed set for the side
with strictly more games (ties count for neither), returns A on strictly
more A set wins, B on strictly more B set wins, and no winner on equal
counts (including an unparseable score); `"6-4,6-3"` yields A and
`"6-4,3-6"` yields none. -/
theorem determine_winner_spec :
    (∀ (a b s : Str),
      determine_winner_from_score a b s =
        (if (parse_score_sets s).countP (fun p => decide (p.2 < p.1)) >
            (parse_score_sets s).countP (fun p => decide (p.1 < p.2)) then some a
         else if (parse_score_sets s).countP (fun p => decide (p.1 < p.2)) >
            (parse_score_sets s).countP (fun p => decide (p.2 < p.1)) then some b
         else none))
    ∧ determine_winner_from_score (("A").data) (("B").data) (("6-4,6-3").data)
        = some (("A").data)
    ∧ determine_winner_from_score (("A").data) (("B").data) (("6-4,3-6").data)
        = none := by
  refine ⟨?_, by decide, by decide⟩
  intro a b s
  unfold determine_winner_from_score
  rw [setWins_eq]
  have key : ∀ x y : Nat,
      (if x = y then (none : Option Str) else if x > y then some a else some b) =
      (if x > y then some a else if y > x then some b else none) := by
    intro x y
    rcases Nat.lt_trichotomy x y with h | h | h
    · simp [Nat.ne_of_lt h, Nat.lt_asymm h, h]
    · simp [h]
    · simp [Nat.ne_of_gt h, Nat.lt_asymm h, h]
  simpa using key ((parse_score_sets s).countP (fun p => decide (p.2 < p.1)))
    ((parse_score_sets s).countP (fun p => decide (p.1 < p.2)))

/-- The winner resolver only ever answers none, the first player, or the
second player. -/
theorem determine_winner_mem (a b s : Str) :
    determine_winner_from_score a b s = none ∨
    determine_winner_from_score a b s = some a ∨
    determine_winner_from_score a b s = some b := by
  unfold determine_winner_from_score
  by_cases h1 : (setWins (parse_score_sets s)).1 = (setWins (parse_score_sets s)).2
  · simp [h1]
  · by_cases h2 : (setWins (parse_score_sets s)).1 > (setWins (parse_score_sets s)).2 <;>
      simp [h1, h2]

/-! ### Mutation gate: failed mutations persist nothing -/

/-- Claim C7: when the mutation function raises, `update_store` skips the
persist step, so the persisted document is unchanged and the error
propagates to the caller. -/
theorem update_store_error_no_persist {ε α : Type} (doc : Store)
    (mutator : Store → Except ε (α × Store)) (e : ε)
    (h : mutator doc = .error e) :
    update_store doc mutator = (.error e, doc) := by
  unfold update_store
  rw [h]

/-- Witness for `update_store_error_no_persist`: deleting an unknown player
raises, and the persisted document stays `storeAB`. -/
theorem update_store_error_no_persist_witness :
    update_store storeAB (api_admin_delete_player (("zz").data)) =
      (.error DelErr.playerNotFound, storeAB) :=
  update_store_error_no_persist storeAB (api_admin_delete_player (("zz").data))
    DelErr.playerNotFound (by rfl)

/-! ### Validator -/

/-- Claim C10: the winner resolver only returns none or one of the two
players, so a winner derived from the score always passes the validator's
membership check; the invalid-winner failure can only arise from an
undetermined winner (empty supplied winner and no resolved winner) or from
a caller-supplied winner that is neither player. -/
theorem winner_always_member :
    (∀ a b s : Str,
      determine_winner_from_score a b s = none ∨
      determine_winner_from_score a b s = some a ∨
      determine_winner_from_score a b s = some b)
    ∧ (∀ (dflt today : Str) (payload : MatchPayload) (store : Store) (admin : Bool),
        validate_match_payload dflt today payload store admin
          = .error VErr.invalidWinner →
        (trimStr payload.winner_id ≠ [] ∧
          trimStr payload.winner_id ≠ trimStr payload.player_a_id ∧
          trimStr payload.winner_id ≠ trimStr payload.player_b_id) ∨
        (trimStr payload.winner_id = [] ∧
          determine_winner_from_score (trimStr payload.player_a_id)
            (trimStr payload.player_b_id) (trimStr payload.score) = none)) := by
  refine ⟨determine_winner_mem, ?_⟩
  intro dflt today payload store admin h
  unfold validate_match_payload at h
  by_cases h1 : ((trimStr payload.player_a_id).isEmpty ||
      (trimStr payload.player_b_id).isEmpty) = true
  · rw [if_pos h1] at h; simp at h
  · rw [if_neg h1] at h
    by_cases h2 : trimStr payload.player_a_id = trimStr payload.player_b_id
    · rw [if_pos h2] at h; simp at h
    · rw [if_neg h2] at h
      by_cases h3 : (!(store.players.any fun p => p.id == trimStr payload.player_a_id) ||
          !(store.players.any fun p => p.id == trimStr payload.player_b_id)) = true
      · rw [if_pos h3] at h; simp at h
      · rw [if_neg h3] at h
        split at h
        · next heq =>
          by_cases h4 : (trimStr payload.winner_id).isEmpty = true
          · rw [if_pos h4] at heq
            right
            exact ⟨by simpa [List.isEmpty_iff] using h4, heq⟩
          · rw [if_neg h4] at heq
            exact Option.noConfusion heq
        · next w heq =>
          by_cases h5 : w ≠ trimStr payload.player_a_id ∧
              w ≠ trimStr payload.player_b_id
          · by_cases h4 : (trimStr payload.winner_id).isEmpty = true
            · exfalso
              rw [if_pos h4] at heq
              rcases determine_winner_mem (trimStr payload.player_a_id)
                  (trimStr payload.player_b_id) (trimStr payload.score) with
                hm | hm | hm <;> rw [heq] at hm
              · exact Option.noConfusion hm
              · exact h5.1 (Option.some.inj hm)
              · exact h5.2 (Option.some.inj hm)
            · rw [if_neg h4] at heq
              have hw : trimStr payload.winner_id = w := Option.some.inj heq
              left
              rw [hw]
              exact ⟨hw ▸ (by simpa [List.isEmpty_iff] using h4), h5.1, h5.2⟩
          · exfalso
            rw [if_neg h5] at h
            by_cases h6 : (trimStr payload.score).isEmpty = true
            · rw [if_pos h6] at h; simp at h
            · rw [if_neg h6] at h; simp at h

/-- Witness for `winner_always_member`: the empty score resolves no winner,
so validation of a payload with no explicit winner reports invalid-winner
through the undetermined-winner case. -/
theorem winner_always_member_witness :
    (determine_winner_from_score (("p1").data) (("p2").data) (("6-4").data) = none ∨
      determine_winner_from_score (("p1").data) (("p2").data) (("6-4").data)
        = some (("p1").data) ∨
      determine_winner_from_score (("p1").data) (("p2").data) (("6-4").data)
        = some (("p2").data))
    ∧ ((trimStr [] ≠ ([] : Str) ∧ trimStr [] ≠ trimStr (("p1").data) ∧
          trimStr [] ≠ trimStr (("p2").data)) ∨
        (trimStr [] = ([] : Str) ∧
          determine_winner_from_score (trimStr (("p1").data))
            (trimStr (("p2").data)) (trimStr []) = none)) :=
  ⟨winner_always_member.1 (("p1").data) (("p2").data) (("6-4").data),
    winner_always_member.2 (("2026-S1").data) (("2026-01-01").data)
      { season := [], stage := [], date := [], player_a_id := ("p1").data,
        player_b_id := ("p2").data, winner_id := [], score := [],
        created_by := none }
      storeAB false (by rfl)⟩

/-- The payload of the C6 counterexample: valid distinct players, no
explicit winner, empty score. -/
def payloadC6 : MatchPayload :=
  { season := [], stage := [], date := [], player_a_id := ("p1").data,
    player_b_id := ("p2").data, winner_id := [], score := [], created_by := none }

/-- Claim C6, counterexample: with both players present and distinct but no
explicit winner and an empty score, validation fails with the
invalid-winner error — the winner check runs before the score check — so
the empty score does not produce the score-required error for this payload,
refuting "regardless of the payload's other fields". -/
theorem validate_empty_score_cex :
    validate_match_payload (("2026-S1").data) (("2026-01-01").data) payloadC6
        storeAB false = .error VErr.invalidWinner
    ∧ VErr.invalidWinner ≠ VErr.scoreRequired :=
  ⟨by rfl, by decide⟩

/-- Claim C6, amended: a payload whose score is empty after trimming fails
with the score-required error provided every earlier check passes: both
player ids non-empty, distinct and known, and the (necessarily explicit)
winner is one of the two players.  Otherwise the earlier error wins. -/
theorem validate_empty_score_amended (dflt today : Str) (payload : MatchPayload)
    (store : Store) (admin : Bool)
    (ha : trimStr payload.player_a_id ≠ [])
    (hb : trimStr payload.player_b_id ≠ [])
    (hab : trimStr payload.player_a_id ≠ trimStr payload.player_b_id)
    (hma : store.players.any (fun p => p.id == trimStr payload.player_a_id) = true)
    (hmb : store.players.any (fun p => p.id == trimStr payload.player_b_id) = true)
    (hw : trimStr payload.winner_id = trimStr payload.player_a_id ∨
      trimStr payload.winner_id = trimStr payload.player_b_id)
    (hs : trimStr payload.score = []) :
    validate_match_payload dflt today payload store admin
      = .error VErr.scoreRequired := by
  have hwne : ¬ (trimStr payload.winner_id).isEmpty = true := by
    rcases hw with h | h <;> rw [h] <;> simpa [List.isEmpty_iff] using (by assumption)
  rcases hw with h | h <;>
    simp [validate_match_payload, List.isEmpty_iff, ha, hb, hab, hma, hmb, hs, h,
      hwne]

/-- Witness for `validate_empty_score_amended`: an explicit winner with an
empty score yields the score-required error. -/
theorem validate_empty_score_amended_witness :
    validate_match_payload (("2026-S1").data) (("2026-01-01").data)
      { season := [], stage := [], date := [], player_a_id := ("p1").data,
        player_b_id := ("p2").data, winner_id := ("p1").data, score := [],
        created_by := none }
      storeAB false = .error VErr.scoreRequired :=
  validate_empty_score_amended (("2026-S1").data) (("2026-01-01").data) _ storeAB
    false (by decide) (by decide) (by decide) (by decide) (by decide)
    (Or.inl (by decide)) (by decide)

/-! ### Cascading delete -/

/-- A tournament match references a player through any of its three
player-valued fields. -/
def tmReferences (t : TournamentMatch) (pid : Str) : Prop :=
  t.player1_id = pid ∨ t.player2_id = pid ∨ t.winner_id = pid

instance (t : TournamentMatch) (pid : Str) : Decidable (tmReferences t pid) := by
  unfold tmReferences
  infer_instance

/-- A tournament match whose only reference to player `p1` is as winner. -/
def tmWinnerOnly : TournamentMatch :=
  { id := ("t1").data, season := ("S1").data, round := ("F").data, slot := 1,
    player1_id := ("q1").data, player2_id := ("q2").data,
    winner_id := ("p1").data, score := ("6-4").data,
    date := ("2026-01-01").data, updated_at := ("now").data }

/-- A store holding Alice (id "p1") and a tournament match that references
"p1" only through its winner field. -/
def storeC3 : Store :=
  { players := [pAlice], matches' := [], tournament_matches := [tmWinnerOnly],
    accounts := [] }

/-- The persisted document after deleting "p1" from `storeC3`. -/
def storeC3After : Store :=
  { players := [], matches' := [], tournament_matches := [tmWinnerOnly],
    accounts := [] }

/-- Claim C3, counterexample: deleting player "p1" from `storeC3` succeeds,
yet the persisted document still holds a tournament match referencing "p1"
(as winner) — the cascade only filters on the two player slots, so "every
TournamentMatch referencing P" is not removed. -/
theorem cascade_delete_cex :
    update_store storeC3 (api_admin_delete_player (("p1").data))
      = (.ok (), storeC3After)
    ∧ tmWinnerOnly ∈ storeC3After.tournament_matches
    ∧ tmReferences tmWinnerOnly (("p1").data)
    ∧ ¬ (∀ t ∈ storeC3After.tournament_matches, ¬ tmReferences t (("p1").data)) :=
  ⟨by rfl, by decide, by decide, by decide⟩

/-- Claim C3, amended: when the players collection contains a player with
identifier P, the cascade delete succeeds and the persisted document holds
no player with id P, no match with P on either side, no tournament match
with P in either player slot, and no account bound to P.  Matches and
tournament matches whose only reference to P is the winner field are not
removed. -/
theorem cascade_delete_amended (pid : Str) (store : Store)
    (hp : ∃ p ∈ store.players, p.id = pid) :
    ∃ s', update_store store (api_admin_delete_player pid) = (.ok (), s')
      ∧ (∀ p ∈ s'.players, p.id ≠ pid)
      ∧ (∀ m ∈ s'.matches', m.player_a_id ≠ pid ∧ m.player_b_id ≠ pid)
      ∧ (∀ t ∈ s'.tournament_matches, t.player1_id ≠ pid ∧ t.player2_id ≠ pid)
      ∧ (∀ a ∈ s'.accounts, a.player_id ≠ pid) := by
  obtain ⟨p, hpmem, hpid⟩ := hp
  have hlen : ¬ (store.players.filter (fun q => q.id != pid)).length
      = store.players.length := by
    intro hEq
    have := List.filter_length_eq_length.mp hEq p hpmem
    simp [hpid] at this
  refine ⟨Store.mk (store.players.filter (fun q => q.id != pid))
      (store.matches'.filter
        (fun m => m.player_a_id != pid && m.player_b_id != pid))
      (store.tournament_matches.filter
        (fun t => t.player1_id != pid && t.player2_id != pid))
      (store.accounts.filter (fun a => a.player_id != pid)),
    ?_, ?_, ?_, ?_, ?_⟩
  · unfold update_store api_admin_delete_player
    rw [if_neg hlen]
  · intro q hq
    have := List.of_mem_filter hq
    simpa using this
  · intro m hm
    have := List.of_mem_filter hm
    simp at this
    simpa using this
  · intro t ht
    have := List.of_mem_filter ht
    simp at this
    simpa using this
  · intro a ha
    have := List.of_mem_filter ha
    simpa using this

/-- Witness for `cascade_delete_amended`: deleting "p1" from `storeAB`. -/
theorem cascade_delete_amended_witness :
    ∃ s', update_store storeAB (api_admin_delete_player (("p1").data))
        = (.ok (), s')
      ∧ (∀ p ∈ s'.players, p.id ≠ ("p1").data)
      ∧ (∀ m ∈ s'.matches', m.player_a_id ≠ ("p1").data ∧
          m.player_b_id ≠ ("p1").data)
      ∧ (∀ t ∈ s'.tournament_matches, t.player1_id ≠ ("p1").data ∧
          t.player2_id ≠ ("p1").data)
      ∧ (∀ a ∈ s'.accounts, a.player_id ≠ ("p1").data) :=
  cascade_delete_amended (("p1").data) storeAB ⟨pAlice, by decide, by decide⟩

/-! ### Tournament upsert -/

/-- The raw lookup key test of the tournament upsert: the stored record's
`(season, round, slot)` equals the raw payload triple. -/
def keyEqTM (m : TournamentMatch) (p : TPayload) : Prop :=
  m.season = p.season ∧ m.round = p.round ∧ m.slot = p.slot

instance (m : TournamentMatch) (p : TPayload) : Decidable (keyEqTM m p) := by
  unfold keyEqTM
  infer_instance

/-- A tournament payload whose round "f" is not yet normalized (the stored
round is upper-cased to "F"). -/
def tpLowerF : TPayload :=
  { season := ("S1").data, round := ("f").data, slot := 1,
    player1_id := ("p1").data, player2_id := ("p2").data,
    winner_id := ("p1").data, score := ("6-4").data, date := ("2026-01-01").data }

/-- An empty store. -/
def storeEmpty : Store :=
  { players := [], matches' := [], tournament_matches := [], accounts := [] }

/-- Claim C4, counterexample: submitting the identical payload (round "f")
twice creates two records with the same normalized key ("S1", "F", 1) —
the lookup compares the raw payload round "f" against the stored,
upper-cased round "F" and never matches, so the repeat is not idempotent
and a duplicate for the same key is created. -/
theorem upsert_idempotent_cex :
    ((api_admin_upsert_tournament_match (("t_2").data) (("now").data) tpLowerF
        (api_admin_upsert_tournament_match (("t_1").data) (("now").data) tpLowerF
          storeEmpty).2).2.tournament_matches.map
      (fun m => (m.id, m.season, m.round, m.slot)))
      = [((("t_1").data : Str), (("S1").data : Str), (("F").data : Str), (1 : Int)),
         ((("t_2").data : Str), (("S1").data : Str), (("F").data : Str), (1 : Int))] := by
  decide

theorem upsertTM_key_found (fresh now : Str) (p : TPayload) :
    ∀ tms : List TournamentMatch, (∃ m ∈ tms, keyEqTM m p) →
      (upsertTM fresh now p tms).2.length = tms.length ∧
      ∃ m ∈ tms, keyEqTM m p ∧ (upsertTM fresh now p tms).1.id = m.id := by
  intro tms
  induction tms with
  | nil => rintro ⟨m, hm, _⟩; simp at hm
  | cons m ms ih =>
    rintro ⟨m', hm', hk⟩
    by_cases hkey : (m.season == p.season && m.round == p.round &&
        m.slot == p.slot) = true
    · refine ⟨by simp [upsertTM, hkey], m, List.mem_cons_self m ms, ?_, ?_⟩
      · simp only [Bool.and_eq_true, beq_iff_eq] at hkey
        exact ⟨hkey.1.1, hkey.1.2, hkey.2⟩
      · simp [upsertTM, hkey, normTM]
    · have hm'ms : m' ∈ ms := by
        rcases List.mem_cons.mp hm' with h | h
        · exfalso
          apply hkey
          rw [h] at hk
          simp [keyEqTM] at hk
          simp [hk.1, hk.2.1, hk.2.2]
        · exact h
      obtain ⟨hlen, mw, hmw, hkw, hid⟩ := ih ⟨m', hm'ms, hk⟩
      refine ⟨by simp [upsertTM, hkey, hlen], mw, List.mem_cons_of_mem m hmw,
        hkw, ?_⟩
      simpa [upsertTM, hkey] using hid

theorem upsertTM_twice (fresh1 fresh2 now : Str) (p : TPayload)
    (hs : trimStr p.season = p.season)
    (hr : toUpperStr (trimStr p.round) = p.round) :
    ∀ tms : List TournamentMatch,
      upsertTM fresh2 now p (upsertTM fresh1 now p tms).2
        = upsertTM fresh1 now p tms := by
  have hkeySelf : ∀ idv, ((normTM idv now p).season == p.season &&
      (normTM idv now p).round == p.round &&
      (normTM idv now p).slot == p.slot) = true := by
    intro idv
    simp [normTM, hs, hr]
  intro tms
  induction tms with
  | nil =>
    simp only [upsertTM, hkeySelf, if_true]
    simp [normTM]
  | cons m ms ih =>
    by_cases hkey : (m.season == p.season && m.round == p.round &&
        m.slot == p.slot) = true
    · simp only [upsertTM, hkey, if_true]
      simp only [upsertTM, hkeySelf, if_true]
      simp [normTM]
    · simp only [upsertTM, hkey, if_false, Bool.false_eq_true]
      rw [ih]

/-- Claim C4, amended: when the raw payload key `(season, round, slot)`
equals the stored key of an existing record, the upsert overwrites that
record in place — the record count does not grow and the returned record
keeps the matched record's identifier.  Repeating an identical submission
is idempotent provided the payload's key fields are already in stored
(normalized) form: season equal to its trim and round equal to its trimmed
upper-casing.  Unnormalized key fields (e.g. round "f") fail the raw lookup
against the normalized stored key and create a duplicate instead. -/
theorem upsert_tournament_amended (fresh1 fresh2 now : Str) (p : TPayload)
    (store : Store) :
    ((∃ m ∈ store.tournament_matches, keyEqTM m p) →
      (api_admin_upsert_tournament_match fresh1 now p
          store).2.tournament_matches.length
        = store.tournament_matches.length ∧
      ∃ m ∈ store.tournament_matches, keyEqTM m p ∧
        (api_admin_upsert_tournament_match fresh1 now p store).1.id = m.id)
    ∧ (trimStr p.season = p.season → toUpperStr (trimStr p.round) = p.round →
      (api_admin_upsert_tournament_match fresh2 now p
          (api_admin_upsert_tournament_match fresh1 now p store).2).2
        = (api_admin_upsert_tournament_match fresh1 now p store).2) := by
  constructor
  · intro hex
    obtain ⟨hlen, m, hm, hk, hid⟩ :=
      upsertTM_key_found fresh1 now p store.tournament_matches hex
    exact ⟨hlen, m, hm, hk, hid⟩
  · intro hs hr
    have h2 := upsertTM_twice fresh1 fresh2 now p hs hr store.tournament_matches
    simp only [api_admin_upsert_tournament_match]
    rw [h2]

/-- A tournament payload already in normalized form. -/
def tpNorm : TPayload :=
  { season := ("S1").data, round := ("F").data, slot := 2,
    player1_id := ("p1").data, player2_id := ("p2").data,
    winner_id := ("p2").data, score := ("6-4").data, date := ("2026-01-02").data }

/-- A stored tournament match with key ("S1", "F", 2). -/
def tm9 : TournamentMatch :=
  { id := ("t9").data, season := ("S1").data, round := ("F").data, slot := 2,
    player1_id := ("x1").data, player2_id := ("x2").data,
    winner_id := ("x1").data, score := ("7-5").data,
    date := ("2026-01-01").data, updated_at := ("then").data }

/-- A store already holding a tournament match with key ("S1", "F", 2). -/
def storeTM : Store :=
  { players := [], matches' := [], tournament_matches := [tm9], accounts := [] }

/-- Witness for `upsert_tournament_amended` at the concrete store `storeTM`
and the normalized payload `tpNorm`. -/
theorem upsert_tournament_amended_witness :
    ((api_admin_upsert_tournament_match (("t_3").data) (("now").data) tpNorm
        storeTM).2.tournament_matches.length
      = storeTM.tournament_matches.length ∧
    ∃ m ∈ storeTM.tournament_matches, keyEqTM m tpNorm ∧
      (api_admin_upsert_tournament_match (("t_3").data) (("now").data) tpNorm
        storeTM).1.id = m.id)
    ∧ (api_admin_upsert_tournament_match (("t_4").data) (("now").data) tpNorm
        (api_admin_upsert_tournament_match (("t_3").data) (("now").data) tpNorm
          storeTM).2).2
      = (api_admin_upsert_tournament_match (("t_3").data) (("now").data) tpNorm
          storeTM).2 :=
  ⟨(upsert_tournament_amended (("t_3").data) (("t_4").data) (("now").data) tpNorm
      storeTM).1 ⟨tm9, by decide, by decide⟩,
    (upsert_tournament_amended (("t_3").data) (("t_4").data) (("now").data) tpNorm
      storeTM).2 (by decide) (by decide)⟩

/-! ### Standings aggregation: closed form of the match scan -/

theorem foldl_maps {α : Type} (l : List α) (h : α → Row → Row) :
    ∀ t : List Row, l.foldl (fun acc a => acc.map (h a)) t
      = t.map (fun r => l.foldl (fun r' a => h a r') r) := by
  induction l with
  | nil => intro t; simp
  | cons a l ih =>
    intro t
    rw [List.foldl_cons, ih (t.map (h a)), List.map_map]
    rfl

theorem applyMatch_eq_map (t : List Row) (m : Match) :
    applyMatch t m = t.map (applyMatchRow m) := by
  unfold applyMatch applyMatchRow updateRow
  by_cases hw1 : (m.winner_id == m.player_a_id) = true
  · simp only [hw1, if_true, List.map_map, foldl_maps]
    rfl
  · by_cases hw2 : (m.winner_id == m.player_b_id) = true
    · simp only [hw1, hw2, if_true, if_false, Bool.false_eq_true, List.map_map,
        foldl_maps]
      rfl
    · simp only [hw1, hw2, if_false, Bool.false_eq_true, List.map_map, foldl_maps]
      rfl

/-- Contribution of one qualifying match to a player's `played` count: one
for each side of the match the player occupies. -/
def playedContr (m : Match) (pid : Str) : Nat :=
  (if m.player_a_id = pid then 1 else 0) + (if m.player_b_id = pid then 1 else 0)

/-- Contribution of one qualifying match to a player's `won` count. -/
def wonContr (m : Match) (pid : Str) : Nat :=
  if m.winner_id = m.player_a_id then (if m.player_a_id = pid then 1 else 0)
  else if m.winner_id = m.player_b_id then (if m.player_b_id = pid then 1 else 0)
  else 0

/-- Contribution of one qualifying match to a player's `lost` count. -/
def lostContr (m : Match) (pid : Str) : Nat :=
  if m.winner_id = m.player_a_id then (if m.player_b_id = pid then 1 else 0)
  else if m.winner_id = m.player_b_id then (if m.player_a_id = pid then 1 else 0)
  else 0

/-- Contribution of one qualifying match to a player's `points`: 3 to the
winner's side, 1 to the loser's side, nothing when the recorded winner is
neither side. -/
def pointsContr (m : Match) (pid : Str) : Nat :=
  if m.winner_id = m.player_a_id then
    (if m.player_a_id = pid then 3 else 0) + (if m.player_b_id = pid then 1 else 0)
  else if m.winner_id = m.player_b_id then
    (if m.player_b_id = pid then 3 else 0) + (if m.player_a_id = pid then 1 else 0)
  else 0

/-- Contribution of one qualifying match to a player's `sets_won`: per
parsed set (gA, gB), gA if the player is side A plus gB if side B. -/
def setsWonContr (m : Match) (pid : Str) : Nat :=
  ((parse_score_sets m.score).map
    (fun s => (if m.player_a_id = pid then s.1 else 0) +
      (if m.player_b_id = pid then s.2 else 0))).sum

/-- Contribution of one qualifying match to a player's `sets_lost`. -/
def setsLostContr (m : Match) (pid : Str) : Nat :=
  ((parse_score_sets m.score).map
    (fun s => (if m.player_a_id = pid then s.2 else 0) +
      (if m.player_b_id = pid then s.1 else 0))).sum

theorem setsFold_eq (a b : Str) (l : List (Nat × Nat)) : ∀ x : Row,
    l.foldl (fun r' s => updRow b (bumpSetsB s) (updRow a (bumpSetsA s) r')) x
      = { x with
          sets_won := x.sets_won + (l.map
            (fun s => (if a = x.player_id then s.1 else 0) +
              (if b = x.player_id then s.2 else 0))).sum,
          sets_lost := x.sets_lost + (l.map
            (fun s => (if a = x.player_id then s.2 else 0) +
              (if b = x.player_id then s.1 else 0))).sum } := by
  induction l with
  | nil => intro x; simp
  | cons s l ih =>
    intro x
    rw [List.foldl_cons, ih]
    obtain ⟨pid, nm, gr, nt, pl, wo, lo, sw, sl, po, pa, rk⟩ := x
    by_cases ha : (pid == a) = true
    · by_cases hb : (pid == b) = true
      · have ha' : a = pid := (beq_iff_eq.mp ha).symm
        have hb' : b = pid := (beq_iff_eq.mp hb).symm
        simp [updRow, bumpSetsA, bumpSetsB, ha, hb, ha', hb']
        constructor <;> omega
      · have ha' : a = pid := (beq_iff_eq.mp ha).symm
        have hb' : ¬ b = pid := by rw [beq_iff_eq] at hb; exact fun h => hb h.symm
        simp [updRow, bumpSetsA, bumpSetsB, ha, hb, ha', hb']
        constructor <;> omega
    · by_cases hb : (pid == b) = true
      · have ha' : ¬ a = pid := by rw [beq_iff_eq] at ha; exact fun h => ha h.symm
        have hb' : b = pid := (beq_iff_eq.mp hb).symm
        simp [updRow, bumpSetsA, bumpSetsB, ha, hb, ha', hb']
        constructor <;> omega
      · have ha' : ¬ a = pid := by rw [beq_iff_eq] at ha; exact fun h => ha h.symm
        have hb' : ¬ b = pid := by rw [beq_iff_eq] at hb; exact fun h => hb h.symm
        simp [updRow, bumpSetsA, bumpSetsB, ha, hb, ha', hb']

theorem beq_symm_true {a b : Str} (h : (a == b) = true) : b = a :=
  (beq_iff_eq.mp h).symm

theorem beq_symm_false {a b : Str} (h : ¬ (a == b) = true) : ¬ b = a := by
  rw [beq_iff_eq] at h
  exact fun e => h e.symm

theorem applyMatchRow_eq (m : Match) (r : Row) :
    applyMatchRow m r = { r with
      played := r.played + playedContr m r.player_id,
      won := r.won + wonContr m r.player_id,
      lost := r.lost + lostContr m r.player_id,
      points := r.points + pointsContr m r.player_id,
      sets_won := r.sets_won + setsWonContr m r.player_id,
      sets_lost := r.sets_lost + setsLostContr m r.player_id } := by
  obtain ⟨pid, nm, gr, nt, pl, wo, lo, sw, sl, po, pa, rk⟩ := r
  simp only [applyMatchRow]
  rw [setsFold_eq]
  by_cases hw1 : (m.winner_id == m.player_a_id) = true <;>
    by_cases hw2 : (m.winner_id == m.player_b_id) = true <;>
    by_cases ha : (pid == m.player_a_id) = true <;>
    by_cases hb : (pid == m.player_b_id) = true <;>
    [skip; skip; skip; skip; skip; skip; skip; skip; skip; skip; skip; skip;
      skip; skip; skip; skip] <;>
    first
    | (have ha' := beq_symm_true ha
       first
       | (have hb' := beq_symm_true hb)
       | (have hb' := beq_symm_false hb))
    | (have ha' := beq_symm_false ha
       first
       | (have hb' := beq_symm_true hb)
       | (have hb' := beq_symm_false hb))
  all_goals
    first
    | (have hw1' := beq_iff_eq.mp hw1)
    | (have hw1' : ¬ m.winner_id = m.player_a_id := by
        rw [beq_iff_eq] at hw1; exact hw1)
  all_goals
    first
    | (have hw2' := beq_iff_eq.mp hw2)
    | (have hw2' : ¬ m.winner_id = m.player_b_id := by
        rw [beq_iff_eq] at hw2; exact hw2)
  all_goals
    simp_all [updRow, bumpPlayed, bumpWin, bumpLoss, playedContr, wonContr,
      lostContr, pointsContr, setsWonContr, setsLostContr, Row.mk.injEq]
  all_goals try constructor <;> omega

theorem applyMatchRow_player_id (m : Match) (r : Row) :
    (applyMatchRow m r).player_id = r.player_id := by
  rw [applyMatchRow_eq]

theorem matchQualifies_map (t : List Row) (g : Row → Row)
    (hg : ∀ r, (g r).player_id = r.player_id) (season : Str) (m : Match) :
    matchQualifies (t.map g) season m = matchQualifies t season m := by
  unfold matchQualifies hasRow
  rw [List.any_map, List.any_map]
  have h1 : ((fun x => x.player_id == m.player_a_id) ∘ g)
      = fun x : Row => x.player_id == m.player_a_id := by
    funext x
    simp [Function.comp, hg]
  have h2 : ((fun x => x.player_id == m.player_b_id) ∘ g)
      = fun x : Row => x.player_id == m.player_b_id := by
    funext x
    simp [Function.comp, hg]
  rw [h1, h2]

theorem scanMatches_eq (season : Str) (ms : List Match) : ∀ t : List Row,
    scanMatches t season ms
      = t.map (fun r => (ms.filter (fun m => matchQualifies t season m)).foldl
          (fun r' m => applyMatchRow m r') r) := by
  induction ms with
  | nil => intro t; simp [scanMatches]
  | cons m ms ih =>
    intro t
    have hstep : scanMatches t season (m :: ms)
        = scanMatches (if matchQualifies t season m then applyMatch t m else t)
            season ms := by
      simp only [scanMatches, List.foldl_cons]
    by_cases hq : matchQualifies t season m = true
    · rw [hstep, if_pos hq, ih (applyMatch t m), applyMatch_eq_map,
        List.map_map]
      have hfilt : (fun m' => matchQualifies (t.map (applyMatchRow m)) season m')
          = fun m' => matchQualifies t season m' := by
        funext m'
        exact matchQualifies_map t (applyMatchRow m) (applyMatchRow_player_id m)
          season m'
      rw [hfilt, List.filter_cons_of_pos hq]
      rfl
    · rw [hstep, if_neg hq, ih t, List.filter_cons_of_neg (by simpa using hq)]

theorem hasRow_upsertRow (t : List Row) (r : Row) (pid : Str) :
    hasRow (upsertRow t r) pid = (hasRow t pid || r.player_id == pid) := by
  unfold upsertRow hasRow
  by_cases hp : t.any (fun x => x.player_id == r.player_id) = true
  · rw [if_pos hp, List.any_map]
    have hfun : ((fun x : Row => x.player_id == pid) ∘
        (fun x => if x.player_id == r.player_id then r else x))
        = fun x : Row => x.player_id == pid := by
      funext x
      by_cases hx : (x.player_id == r.player_id) = true
      · have hxe := beq_iff_eq.mp hx
        simp [Function.comp, hx, hxe]
      · simp [Function.comp, hx]
    rw [hfun]
    by_cases hr : (r.player_id == pid) = true
    · rcases List.any_eq_true.mp hp with ⟨x, hx, hxr⟩
      have hxp : (x.player_id == pid) = true := by
        rw [beq_iff_eq.mp hxr, beq_iff_eq.mp hr]
        exact beq_self_eq_true pid
      have hx2 : t.any (fun x => x.player_id == pid) = true :=
        List.any_eq_true.mpr ⟨x, hx, hxp⟩
      rw [hx2, hr]
      rfl
    · simp [hr]
  · rw [if_neg hp, List.any_append]
    simp

theorem hasRow_seedTable (ps : List Player) (pid : Str) :
    hasRow (seedTable ps) pid = ps.any (fun p => p.id == pid) := by
  suffices h : ∀ acc, hasRow (ps.foldl (fun t p => upsertRow t (initRow p)) acc) pid
      = (hasRow acc pid || ps.any (fun p => p.id == pid)) by
    simpa [seedTable, hasRow] using h []
  induction ps with
  | nil => intro acc; simp
  | cons p ps ih =>
    intro acc
    simp only [List.foldl_cons, List.any_cons]
    rw [ih, hasRow_upsertRow]
    simp [initRow, Bool.or_assoc]

/-- The zero-initialized statistics of a freshly seeded row. -/
def InitZero (r : Row) : Prop :=
  r.played = 0 ∧ r.won = 0 ∧ r.lost = 0 ∧ r.sets_won = 0 ∧ r.sets_lost = 0 ∧
    r.points = 0

theorem seedTable_zero (ps : List Player) : ∀ r ∈ seedTable ps, InitZero r := by
  suffices h : ∀ acc, (∀ r ∈ acc, InitZero r) →
      ∀ r ∈ ps.foldl (fun t p => upsertRow t (initRow p)) acc, InitZero r by
    exact h [] (by simp)
  induction ps with
  | nil => intro acc hacc; simpa using hacc
  | cons p ps ih =>
    intro acc hacc
    refine ih (upsertRow acc (initRow p)) ?_
    intro r hr
    unfold upsertRow at hr
    by_cases hp : acc.any (fun x => x.player_id == (initRow p).player_id) = true
    · rw [if_pos hp] at hr
      rcases List.mem_map.mp hr with ⟨x, hx, hxe⟩
      by_cases hxx : (x.player_id == (initRow p).player_id) = true
      · rw [if_pos hxx] at hxe
        rw [← hxe]
        simp [InitZero, initRow]
      · rw [if_neg hxx] at hxe
        exact hxe ▸ hacc x hx
    · rw [if_neg hp] at hr
      rcases List.mem_append.mp hr with h | h
      · exact hacc r h
      · simp only [List.mem_singleton] at h
        subst h
        simp [InitZero, initRow]

theorem foldl_applyMatchRow (l : List Match) : ∀ r : Row,
    l.foldl (fun r' m => applyMatchRow m r') r = { r with
      played := r.played + (l.map (fun m => playedContr m r.player_id)).sum,
      won := r.won + (l.map (fun m => wonContr m r.player_id)).sum,
      lost := r.lost + (l.map (fun m => lostContr m r.player_id)).sum,
      points := r.points + (l.map (fun m => pointsContr m r.player_id)).sum,
      sets_won := r.sets_won + (l.map (fun m => setsWonContr m r.player_id)).sum,
      sets_lost := r.sets_lost +
        (l.map (fun m => setsLostContr m r.player_id)).sum } := by
  induction l with
  | nil => intro r; simp
  | cons m l ih =>
    intro r
    rw [List.foldl_cons, applyMatchRow_eq, ih]
    obtain ⟨pid, nm, gr, nt, pl, wo, lo, sw, sl, po, pa, rk⟩ := r
    simp [List.map_cons, List.sum_cons, Row.mk.injEq]
    all_goals omega

theorem assignRanks_mem : ∀ (n : Nat) (l : List Row), ∀ r ∈ assignRanks n l,
    ∃ r0 ∈ l, ∃ k, r = { r0 with rank := k } := by
  intro n l
  induction l generalizing n with
  | nil => intro r hr; simp [assignRanks] at hr
  | cons x xs ih =>
    intro r hr
    simp only [assignRanks] at hr
    rcases List.mem_cons.mp hr with h | h
    · exact ⟨x, List.mem_cons_self x xs, n + 1, h⟩
    · obtain ⟨r0, hr0, k, hk⟩ := ih (n + 1) r h
      exact ⟨r0, List.mem_cons_of_mem x hr0, k, hk⟩

/-- The spec-level match filter of the standings scan: stage `REGULAR`,
status `completed`, the season filter (skipped for a falsy target), and
both players among the seeded (active, group-filtered) players. -/
def qualifies (store : Store) (season group : Str) (m : Match) : Bool :=
  m.stage == ("REGULAR").data && m.status == ("completed").data &&
    (season.isEmpty || m.season == season) &&
    (seededPlayers store group).any (fun p => p.id == m.player_a_id) &&
    (seededPlayers store group).any (fun p => p.id == m.player_b_id)

theorem matchQualifies_seedTable (store : Store) (season group : Str) (m : Match) :
    matchQualifies (seedTable (seededPlayers store group)) season m
      = qualifies store season group m := by
  unfold matchQualifies qualifies
  rw [hasRow_seedTable, hasRow_seedTable]

/-- Claim C2, amended: each row of the standings table accumulates exactly
the matches passing the scan filter — stage `REGULAR`, status `completed`,
season equal to the target UNLESS the target season is falsy (empty), in
which case matches of every season are admitted, and both players seeded —
with the per-match effects the claim describes (played +1 per occupied
side, winner side +3 points and one win, loser side +1 point and one loss,
and per parsed set (gA, gB) the symmetric set-game accumulation); matches
failing the filter contribute nothing. -/
theorem standings_aggregation (store : Store) (season group : Str) (r : Row)
    (hr : r ∈ compute_standings store season group) :
    r.played = ((store.matches'.filter (qualifies store season group)).map
        (fun m => playedContr m r.player_id)).sum
    ∧ r.won = ((store.matches'.filter (qualifies store season group)).map
        (fun m => wonContr m r.player_id)).sum
    ∧ r.lost = ((store.matches'.filter (qualifies store season group)).map
        (fun m => lostContr m r.player_id)).sum
    ∧ r.points = ((store.matches'.filter (qualifies store season group)).map
        (fun m => pointsContr m r.player_id)).sum
    ∧ r.sets_won = ((store.matches'.filter (qualifies store season group)).map
        (fun m => setsWonContr m r.player_id)).sum
    ∧ r.sets_lost = ((store.matches'.filter (qualifies store season group)).map
        (fun m => setsLostContr m r.player_id)).sum := by
  have e : compute_standings store season group = assignRanks 0
      (List.insertionSort RowLE
        (scanMatches (seedTable (seededPlayers store group)) season
          store.matches')) := rfl
  rw [e] at hr
  obtain ⟨r0, hr0, k, hk⟩ := assignRanks_mem 0 _ r hr
  have hr0T : r0 ∈ scanMatches (seedTable (seededPlayers store group)) season
      store.matches' := (List.perm_insertionSort RowLE _).mem_iff.mp hr0
  rw [scanMatches_eq] at hr0T
  rcases List.mem_map.mp hr0T with ⟨r1, hr1, hfold⟩
  obtain ⟨hzp, hzw, hzl, hzsw, hzsl, hzpo⟩ := seedTable_zero _ r1 hr1
  have hfilt : store.matches'.filter
      (fun m => matchQualifies (seedTable (seededPlayers store group)) season m)
      = store.matches'.filter (qualifies store season group) := by
    congr 1
    funext m
    exact matchQualifies_seedTable store season group m
  rw [hfilt, foldl_applyMatchRow] at hfold
  subst hk
  rw [← hfold]
  simp [hzp, hzw, hzl, hzsw, hzsl, hzpo]

/-- The strict-season variant of the scan filter, as the claim states it:
the match's season must equal the target even when the target is empty. -/
def qualifiesStrict (store : Store) (season group : Str) (m : Match) : Bool :=
  m.stage == ("REGULAR").data && m.status == ("completed").data &&
    m.season == season &&
    (seededPlayers store group).any (fun p => p.id == m.player_a_id) &&
    (seededPlayers store group).any (fun p => p.id == m.player_b_id)

/-- A completed regular match of season "X" between Alice and Bob, won by
Alice 6-4, 6-3. -/
def mX : Match :=
  { id := ("m1").data, season := ("X").data, stage := ("REGULAR").data,
    status := ("completed").data, player_a_id := ("p1").data,
    player_b_id := ("p2").data, winner_id := ("p1").data,
    score := ("6-4,6-3").data }

/-- Alice, Bob, and the season-"X" match. -/
def storeXM : Store :=
  { players := [pAlice, pBob], matches' := [mX], tournament_matches := [],
    accounts := [] }

/-- Claim C2, counterexample: with an empty target season, the code skips
the season filter (`if season and ...`), so the season-"X" match is counted
(Alice gets 3 points) even though its season differs from the target; under
the claim's strict filter "season equal to the target" no match qualifies
and every row would have 0 points. -/
theorem standings_aggregation_cex :
    ((compute_standings storeXM [] (("ALL").data)).map
        (fun r => (r.player_id, r.points))
      = [((("p1").data : Str), 3), ((("p2").data : Str), 1)])
    ∧ ((storeXM.matches'.filter (qualifiesStrict storeXM [] (("ALL").data))).map
        (fun m => pointsContr m (("p1").data))).sum = 0
    ∧ ¬ (∀ r ∈ compute_standings storeXM [] (("ALL").data),
        r.points = ((storeXM.matches'.filter
          (qualifiesStrict storeXM [] (("ALL").data))).map
          (fun m => pointsContr m r.player_id)).sum) :=
  ⟨by decide, by decide, by decide⟩

/-- The season-"S1" match between Alice and Bob, won by Alice 6-4, 6-3. -/
def mS : Match :=
  { id := ("m1").data, season := ("S1").data, stage := ("REGULAR").data,
    status := ("completed").data, player_a_id := ("p1").data,
    player_b_id := ("p2").data, winner_id := ("p1").data,
    score := ("6-4,6-3").data }

/-- Alice, Bob, and the season-"S1" match. -/
def storeABM : Store :=
  { players := [pAlice, pBob], matches' := [mS], tournament_matches := [],
    accounts := [] }

/-- Alice's standings row in `storeABM` for season "S1". -/
def rowAliceM : Row :=
  { player_id := ("p1").data, name := ("Alice").data, group := ("D3").data,
    ntrp := ("3.5").data, played := 1, won := 1, lost := 0, sets_won := 12,
    sets_lost := 7, points := 3, paid := false, rank := 1 }

/-- Witness for `standings_aggregation` at the concrete store `storeABM`. -/
theorem standings_aggregation_witness :
    rowAliceM.played = ((storeABM.matches'.filter
        (qualifies storeABM (("S1").data) (("ALL").data))).map
        (fun m => playedContr m rowAliceM.player_id)).sum
    ∧ rowAliceM.won = ((storeABM.matches'.filter
        (qualifies storeABM (("S1").data) (("ALL").data))).map
        (fun m => wonContr m rowAliceM.player_id)).sum
    ∧ rowAliceM.lost = ((storeABM.matches'.filter
        (qualifies storeABM (("S1").data) (("ALL").data))).map
        (fun m => lostContr m rowAliceM.player_id)).sum
    ∧ rowAliceM.points = ((storeABM.matches'.filter
        (qualifies storeABM (("S1").data) (("ALL").data))).map
        (fun m => pointsContr m rowAliceM.player_id)).sum
    ∧ rowAliceM.sets_won = ((storeABM.matches'.filter
        (qualifies storeABM (("S1").data) (("ALL").data))).map
        (fun m => setsWonContr m rowAliceM.player_id)).sum
    ∧ rowAliceM.sets_lost = ((storeABM.matches'.filter
        (qualifies storeABM (("S1").data) (("ALL").data))).map
        (fun m => setsLostContr m rowAliceM.player_id)).sum :=
  standings_aggregation storeABM (("S1").data) (("ALL").data) rowAliceM (by decide)

/-! ### Score parser: declarative characterization -/

theorem space_toNat {c : Char} (h : isSpaceChar c = true) :
    c.toNat = 32 ∨ c.toNat = 9 ∨ c.toNat = 10 ∨ c.toNat = 13 ∨ c.toNat = 11 ∨
      c.toNat = 12 := by
  simp only [isSpaceChar, Bool.or_eq_true, decide_eq_true_eq] at h
  rcases h with ⟨⟨⟨⟨h | h⟩ | h⟩ | h⟩ | h⟩ | h
  · left; rw [h]; rfl
  · right; left; rw [h]; rfl
  · right; right; left; rw [h]; rfl
  · right; right; right; left; rw [h]; rfl
  · right; right; right; right; left; exact h
  · right; right; right; right; right; exact h

theorem digit_toNat {c : Char} (h : isDigitChar c = true) :
    48 ≤ c.toNat ∧ c.toNat ≤ 57 := by
  simpa [isDigitChar] using h

theorem sep_toNat {c : Char} (h : isSepChar c = true) :
    c.toNat = 58 ∨ c.toNat = 45 := by
  simp only [isSepChar, Bool.or_eq_true, decide_eq_true_eq] at h
  rcases h with h | h
  · left; rw [h]; rfl
  · right; rw [h]; rfl

theorem digit_not_space {c : Char} (h : isDigitChar c = true) :
    isSpaceChar c = false := by
  cases hs : isSpaceChar c
  · rfl
  · exfalso
    have h1 := digit_toNat h
    have h2 := space_toNat hs
    omega

theorem sep_not_space {c : Char} (h : isSepChar c = true) :
    isSpaceChar c = false := by
  cases hs : isSpaceChar c
  · rfl
  · exfalso
    have h1 := sep_toNat h
    have h2 := space_toNat hs
    omega

theorem sep_not_digit {c : Char} (h : isSepChar c = true) :
    isDigitChar c = false := by
  cases hd : isDigitChar c
  · rfl
  · exfalso
    have h1 := sep_toNat h
    have h2 := digit_toNat hd
    omega

theorem space_not_digit {c : Char} (h : isSpaceChar c = true) :
    isDigitChar c = false := by
  cases hd : isDigitChar c
  · rfl
  · exfalso
    have h1 := space_toNat h
    have h2 := digit_toNat hd
    omega

theorem dropWhile_append_all {p : Char → Bool} {w rest : Str}
    (hw : ∀ c ∈ w, p c = true) :
    (w ++ rest).dropWhile p = rest.dropWhile p := by
  induction w with
  | nil => rfl
  | cons c w ih =>
    simp only [List.cons_append, List.dropWhile_cons,
      hw c (List.mem_cons_self c w), if_true]
    exact ih (fun c' hc' => hw c' (List.mem_cons_of_mem c hc'))

theorem takeWhile_append_all {p : Char → Bool} {w rest : Str}
    (hw : ∀ c ∈ w, p c = true) :
    (w ++ rest).takeWhile p = w ++ rest.takeWhile p := by
  induction w with
  | nil => rfl
  | cons c w ih =>
    simp only [List.cons_append, List.takeWhile_cons,
      hw c (List.mem_cons_self c w), if_true]
    rw [ih (fun c' hc' => hw c' (List.mem_cons_of_mem c hc'))]

theorem dropWhile_cons_false {p : Char → Bool} {c : Char} {t : Str}
    (h : p c = false) : (c :: t).dropWhile p = c :: t := by
  simp [List.dropWhile_cons, h]

theorem takeWhile_cons_false {p : Char → Bool} {c : Char} {t : Str}
    (h : p c = false) : (c :: t).takeWhile p = [] := by
  simp [List.takeWhile_cons, h]

theorem takeWhile_nil_of_all {p : Char → Bool} {l : Str}
    (h : ∀ c ∈ l, p c = false) : l.takeWhile p = [] := by
  cases l with
  | nil => rfl
  | cons c t => exact takeWhile_cons_false (h c (List.mem_cons_self c t))

/-- The set-segment pattern `\s*(\d+)\s*[:\-]\s*(\d+)\s*$` stated
declaratively: a decomposition into whitespace runs, two non-empty digit
runs with the values `g`, and one separator character. -/
def SegPattern (cs : Str) (g : Nat × Nat) : Prop :=
  ∃ w1 d1 w2 c w3 d2 w4,
    cs = w1 ++ (d1 ++ (w2 ++ (c :: (w3 ++ (d2 ++ w4))))) ∧
    (∀ x ∈ w1, isSpaceChar x = true) ∧ d1 ≠ [] ∧
    (∀ x ∈ d1, isDigitChar x = true) ∧
    (∀ x ∈ w2, isSpaceChar x = true) ∧ isSepChar c = true ∧
    (∀ x ∈ w3, isSpaceChar x = true) ∧ d2 ≠ [] ∧
    (∀ x ∈ d2, isDigitChar x = true) ∧
    (∀ x ∈ w4, isSpaceChar x = true) ∧ g = (digitsVal d1, digitsVal d2)

theorem parseSetSegment_some_iff (cs : Str) (g : Nat × Nat) :
    parseSetSegment cs = some g ↔ SegPattern cs g := by
  constructor
  · intro h
    simp only [parseSetSegment] at h
    by_cases h1 : ((cs.dropWhile isSpaceChar).takeWhile isDigitChar).isEmpty = true
    · rw [if_pos h1] at h
      exact absurd h (by simp)
    · rw [if_neg h1] at h
      split at h
      · exact absurd h (by simp)
      · next c t3 heq =>
        by_cases h2 : isSepChar c = true
        · rw [if_pos h2] at h
          by_cases h3 : ((t3.dropWhile isSpaceChar).takeWhile isDigitChar).isEmpty
              = true
          · rw [if_pos h3] at h
            exact absurd h (by simp)
          · rw [if_neg h3] at h
            by_cases h4 : (((t3.dropWhile isSpaceChar).dropWhile
                isDigitChar).dropWhile isSpaceChar).isEmpty = true
            · rw [if_pos h4] at h
              refine ⟨cs.takeWhile isSpaceChar,
                (cs.dropWhile isSpaceChar).takeWhile isDigitChar,
                ((cs.dropWhile isSpaceChar).dropWhile isDigitChar).takeWhile
                  isSpaceChar,
                c, t3.takeWhile isSpaceChar,
                (t3.dropWhile isSpaceChar).takeWhile isDigitChar,
                (t3.dropWhile isSpaceChar).dropWhile isDigitChar,
                ?_, fun x hx => List.mem_takeWhile_imp hx, by simpa using h1,
                fun x hx => List.mem_takeWhile_imp hx,
                fun x hx => List.mem_takeWhile_imp hx, h2,
                fun x hx => List.mem_takeWhile_imp hx, by simpa using h3,
                fun x hx => List.mem_takeWhile_imp hx,
                List.dropWhile_eq_nil_iff.mp (by simpa using h4),
                (Option.some.inj h).symm⟩
              conv_lhs => rw [← List.takeWhile_append_dropWhile isSpaceChar cs]
              congr 1
              conv_lhs => rw [← List.takeWhile_append_dropWhile isDigitChar
                (cs.dropWhile isSpaceChar)]
              congr 1
              conv_lhs => rw [← List.takeWhile_append_dropWhile isSpaceChar
                ((cs.dropWhile isSpaceChar).dropWhile isDigitChar)]
              rw [heq]
              congr 2
              conv_lhs => rw [← List.takeWhile_append_dropWhile isSpaceChar t3]
              congr 1
              exact (List.takeWhile_append_dropWhile isDigitChar
                (t3.dropWhile isSpaceChar)).symm
            · rw [if_neg h4] at h
              exact absurd h (by simp)
        · rw [if_neg h2] at h
          exact absurd h (by simp)
  · rintro ⟨w1, d1, w2, c, w3, d2, w4, hcs, hw1, hd1ne, hd1, hw2, hsep, hw3,
      hd2ne, hd2, hw4, hg⟩
    obtain ⟨c1, d1', rfl⟩ := List.exists_cons_of_ne_nil hd1ne
    obtain ⟨c2, d2', rfl⟩ := List.exists_cons_of_ne_nil hd2ne
    subst hcs
    subst hg
    have hc1d : isDigitChar c1 = true := hd1 c1 (List.mem_cons_self c1 d1')
    have hc2d : isDigitChar c2 = true := hd2 c2 (List.mem_cons_self c2 d2')
    have e1 : ((w1 ++ ((c1 :: d1') ++ (w2 ++ (c :: (w3 ++ ((c2 :: d2') ++
        w4)))))).dropWhile isSpaceChar)
        = (c1 :: d1') ++ (w2 ++ (c :: (w3 ++ ((c2 :: d2') ++ w4)))) := by
      rw [dropWhile_append_all hw1]
      exact dropWhile_cons_false (digit_not_space hc1d)
    have htailD : (w2 ++ (c :: (w3 ++ ((c2 :: d2') ++ w4)))).takeWhile
        isDigitChar = [] := by
      cases w2 with
      | nil => exact takeWhile_cons_false (sep_not_digit hsep)
      | cons cw w2' =>
        exact takeWhile_cons_false
          (space_not_digit (hw2 cw (List.mem_cons_self cw w2')))
    have e2 : ((c1 :: d1') ++ (w2 ++ (c :: (w3 ++ ((c2 :: d2') ++
        w4))))).takeWhile isDigitChar = c1 :: d1' := by
      rw [takeWhile_append_all hd1, htailD, List.append_nil]
    have htailD' : (w2 ++ (c :: (w3 ++ ((c2 :: d2') ++ w4)))).dropWhile
        isDigitChar = w2 ++ (c :: (w3 ++ ((c2 :: d2') ++ w4))) := by
      cases w2 with
      | nil => exact dropWhile_cons_false (sep_not_digit hsep)
      | cons cw w2' =>
        exact dropWhile_cons_false
          (space_not_digit (hw2 cw (List.mem_cons_self cw w2')))
    have e3 : ((c1 :: d1') ++ (w2 ++ (c :: (w3 ++ ((c2 :: d2') ++
        w4))))).dropWhile isDigitChar
        = w2 ++ (c :: (w3 ++ ((c2 :: d2') ++ w4))) := by
      rw [dropWhile_append_all hd1, htailD']
    have e4 : (w2 ++ (c :: (w3 ++ ((c2 :: d2') ++ w4)))).dropWhile isSpaceChar
        = c :: (w3 ++ ((c2 :: d2') ++ w4)) := by
      rw [dropWhile_append_all hw2]
      exact dropWhile_cons_false (sep_not_space hsep)
    have e5 : (w3 ++ ((c2 :: d2') ++ w4)).dropWhile isSpaceChar
        = (c2 :: d2') ++ w4 := by
      rw [dropWhile_append_all hw3]
      exact dropWhile_cons_false (digit_not_space hc2d)
    have e6 : ((c2 :: d2') ++ w4).takeWhile isDigitChar = c2 :: d2' := by
      rw [takeWhile_append_all hd2,
        takeWhile_nil_of_all (fun x hx => space_not_digit (hw4 x hx)),
        List.append_nil]
    have e7 : ((c2 :: d2') ++ w4).dropWhile isDigitChar = w4 := by
      rw [dropWhile_append_all hd2]
      cases w4 with
      | nil => rfl
      | cons cw w4' =>
        exact dropWhile_cons_false
          (space_not_digit (hw4 cw (List.mem_cons_self cw w4')))
    have e8 : w4.dropWhile isSpaceChar = [] :=
      List.dropWhile_eq_nil_iff.mpr hw4
    simp only [parseSetSegment, e1, e2, e3, e4, e5, e6, e7, e8]
    simp [hsep]

/-- The decimal digit character for a digit value below 10. -/
def digitChar (d : Nat) : Char :=
  Char.ofNat (48 + d)

theorem digitChar_toNat {d : Nat} (hd : d < 10) : (digitChar d).toNat = 48 + d := by
  interval_cases d <;> rfl

theorem digitChar_isDigit {d : Nat} (hd : d < 10) : isDigitChar (digitChar d) = true := by
  simp only [isDigitChar, digitChar_toNat hd, Bool.and_eq_true, decide_eq_true_eq]
  omega

/-- The decimal representation of `n`, most significant digit first, as
Python's `str(n)` produces it. -/
def numChars (n : Nat) : Str :=
  if n = 0 then [('0')] else (Nat.digits 10 n).reverse.map digitChar

theorem numChars_ne_nil (n : Nat) : numChars n ≠ [] := by
  unfold numChars
  split
  · simp
  · next h =>
    simp [Nat.digits_ne_nil_iff_ne_zero.mpr h]

theorem numChars_all_digit (n : Nat) : ∀ c ∈ numChars n, isDigitChar c = true := by
  unfold numChars
  split
  · intro c hc
    simp only [List.mem_singleton] at hc
    subst hc
    rfl
  · intro c hc
    rcases List.mem_map.mp hc with ⟨d, hd, rfl⟩
    exact digitChar_isDigit
      (Nat.digits_lt_base (by norm_num) (List.mem_reverse.mp hd))

theorem foldr_eq_ofDigits (L : List Nat) :
    L.foldr (fun d acc => 10 * acc + d) 0 = Nat.ofDigits 10 L := by
  induction L with
  | nil => rfl
  | cons d L ih =>
    rw [List.foldr_cons, ih, Nat.ofDigits_cons]
    push_cast
    omega

theorem foldr_digitChar (L : List Nat) (hL : ∀ d ∈ L, d < 10) :
    L.foldr (fun x acc => 10 * acc + ((digitChar x).toNat - 48)) 0
      = L.foldr (fun x acc => 10 * acc + x) 0 := by
  induction L with
  | nil => rfl
  | cons d L ih =>
    rw [List.foldr_cons, List.foldr_cons,
      ih (fun d' hd' => hL d' (List.mem_cons_of_mem d hd')),
      digitChar_toNat (hL d (List.mem_cons_self d L))]
    omega

theorem digitsVal_numChars (n : Nat) : digitsVal (numChars n) = n := by
  unfold numChars
  split
  · next h => subst h; rfl
  · next h =>
    unfold digitsVal
    rw [List.foldl_map, List.foldl_reverse]
    rw [foldr_digitChar (Nat.digits 10 n)
      (fun d hd => Nat.digits_lt_base (by norm_num) hd)]
    rw [foldr_eq_ofDigits, Nat.ofDigits_digits]

theorem splitComma_ne_nil : ∀ l : Str, splitComma l ≠ []
  | [] => by simp [splitComma]
  | c :: rest => by
    simp only [splitComma]
    rcases h : splitComma rest with _ | ⟨seg, segs⟩
    · simp
    · show ¬ (if c = ',' then ([] : Str) :: seg :: segs
        else (c :: seg) :: segs) = []
      split <;> simp

theorem splitComma_append (seg rest : Str) (hseg : ∀ c ∈ seg, ¬ c = ',') :
    splitComma (seg ++ ',' :: rest) = seg :: splitComma rest := by
  induction seg with
  | nil =>
    simp only [List.nil_append, splitComma]
    rcases h : splitComma rest with _ | ⟨s0, ss⟩
    · exact absurd h (splitComma_ne_nil rest)
    · simp
  | cons c seg' ih =>
    have hc : ¬ c = ',' := hseg c (List.mem_cons_self c seg')
    have ih' := ih (fun x hx => hseg x (List.mem_cons_of_mem c hx))
    simp only [List.cons_append, splitComma]
    rcases hsc : splitComma (seg' ++ ',' :: rest) with _ | ⟨s0, ss⟩
    · exact absurd hsc (splitComma_ne_nil _)
    · rw [ih'] at hsc
      obtain ⟨rfl, rfl⟩ : seg' = s0 ∧ splitComma rest = ss :=
        ⟨(List.cons.inj hsc).1, (List.cons.inj hsc).2⟩
      simp [hc]

theorem digit_ne_comma {c : Char} (h : isDigitChar c = true) : ¬ c = ',' := by
  intro he
  subst he
  simp [isDigitChar] at h

/-- Every finite list of set results is produced by some score string; in
particular neither the game counts nor the number of sets is bounded. -/
theorem parse_score_sets_surj (l : List (Nat × Nat)) :
    ∃ s : Str, parse_score_sets s = l := by
  induction l with
  | nil => exact ⟨[], rfl⟩
  | cons g l ih =>
    obtain ⟨s, hs⟩ := ih
    refine ⟨(numChars g.1 ++ '-' :: numChars g.2) ++ ',' :: s, ?_⟩
    have hseg : ∀ c ∈ numChars g.1 ++ '-' :: numChars g.2, ¬ c = ',' := by
      intro c hc
      rcases List.mem_append.mp hc with h | h
      · exact digit_ne_comma (numChars_all_digit g.1 c h)
      · rcases List.mem_cons.mp h with h | h
        · subst h; decide
        · exact digit_ne_comma (numChars_all_digit g.2 c h)
    have hparse : parseSetSegment (numChars g.1 ++ '-' :: numChars g.2)
        = some g := by
      rw [parseSetSegment_some_iff]
      exact ⟨[], numChars g.1, [], '-', [], numChars g.2, [], by simp,
        by simp, numChars_ne_nil g.1, numChars_all_digit g.1, by simp, rfl,
        by simp, numChars_ne_nil g.2, numChars_all_digit g.2, by simp,
        by rw [digitsVal_numChars, digitsVal_numChars]⟩
    unfold parse_score_sets
    rw [splitComma_append _ _ hseg, List.filterMap_cons, hparse]
    simpa [parse_score_sets] using congrArg (fun x => g :: x) hs

/-- Claim C8: `parse_score_sets` is total (a Lean function — it never
throws), returns in input order exactly one (int, int) pair per
comma-separated segment matching the set pattern (a segment parses iff it
matches the declarative pattern `SegPattern`, with the digit values as the
pair), silently skipping all other segments; empty input yields no sets;
and every list of pairs — of any length, with arbitrarily large game
counts — is realised by some input, so no upper bound is imposed. -/
theorem parse_score_sets_spec :
    (∀ s : Str, parse_score_sets s = (splitComma s).filterMap parseSetSegment)
    ∧ (∀ (cs : Str) (g : Nat × Nat),
        parseSetSegment cs = some g ↔ SegPattern cs g)
    ∧ parse_score_sets [] = []
    ∧ (∀ l : List (Nat × Nat), ∃ s : Str, parse_score_sets s = l) :=
  ⟨fun _ => rfl, parseSetSegment_some_iff, rfl, parse_score_sets_surj⟩

/-! ### Concurrency: the mutation gate serializes writes -/

/-- A thread has persisted its mutation (the document reflects it). -/
def committed : GatePhase σ → Prop
  | .persisted => True
  | .finished => True
  | _ => False

theorem phase_true (s : GateState σ) : s.phase true = s.th1 := rfl

theorem phase_false (s : GateState σ) : s.phase false = s.th0 := rfl

theorem setPhase_true (s : GateState σ) (p : GatePhase σ) :
    s.setPhase true p = { s with th1 := p } := rfl

theorem setPhase_false (s : GateState σ) (p : GatePhase σ) :
    s.setPhase false p = { s with th0 := p } := rfl

/-- Inductive invariant of the two-thread mutation gate: a thread inside
the critical section holds the lock, a loaded snapshot is the current
document, and the document is determined by which threads have committed. -/
def GateInv (m0 m1 : σ → σ) (d : σ) (s : GateState σ) : Prop :=
  (inCritical s.th0 → s.lock = some false) ∧
  (inCritical s.th1 → s.lock = some true) ∧
  (∀ snap, s.th0 = .loaded snap → snap = s.file) ∧
  (∀ snap, s.th1 = .loaded snap → snap = s.file) ∧
  (¬ committed s.th0 → ¬ committed s.th1 → s.file = d) ∧
  (committed s.th0 → ¬ committed s.th1 → s.file = m0 d) ∧
  (¬ committed s.th0 → committed s.th1 → s.file = m1 d) ∧
  (committed s.th0 → committed s.th1 →
    s.file = m0 (m1 d) ∨ s.file = m1 (m0 d))

theorem GateInv_step {m0 m1 : σ → σ} {d : σ} {s s' : GateState σ}
    (hstep : GateStep m0 m1 s s') (hinv : GateInv m0 m1 d s) :
    GateInv m0 m1 d s' := by
  obtain ⟨hc0, hc1, hl0, hl1, hf00, hf10, hf01, hf11⟩ := hinv
  cases hstep with
  | acquire i hlock hidle =>
    cases i
    · rw [phase_false] at hidle
      rw [setPhase_false]
      have hnc1 : ¬ inCritical s.th1 := fun h => by
        have := (hc1 h).symm.trans hlock
        simp at this
      have hcomm0 : ¬ committed s.th0 := by rw [hidle]; simp [committed]
      exact ⟨fun _ => rfl, fun h => absurd h hnc1, fun snap h => absurd h (by simp),
        fun snap h => hl1 snap h,
        fun _ h2 => hf00 hcomm0 h2,
        fun h1 _ => absurd h1 (by simp [committed]),
        fun _ h2 => hf01 hcomm0 h2,
        fun h1 _ => absurd h1 (by simp [committed])⟩
    · rw [phase_true] at hidle
      rw [setPhase_true]
      have hnc0 : ¬ inCritical s.th0 := fun h => by
        have := (hc0 h).symm.trans hlock
        simp at this
      have hcomm1 : ¬ committed s.th1 := by rw [hidle]; simp [committed]
      exact ⟨fun h => absurd h hnc0, fun _ => rfl, fun snap h => hl0 snap h,
        fun snap h => absurd h (by simp),
        fun h1 _ => hf00 h1 hcomm1,
        fun h1 _ => hf10 h1 hcomm1,
        fun _ h2 => absurd h2 (by simp [committed]),
        fun _ h2 => absurd h2 (by simp [committed])⟩
  | load i hlock hlocked =>
    cases i
    · rw [phase_false] at hlocked
      rw [setPhase_false]
      have hcomm0 : ¬ committed s.th0 := by rw [hlocked]; simp [committed]
      exact ⟨fun _ => hlock, hc1,
        fun snap h => (GatePhase.loaded.inj h).symm,
        fun snap h => hl1 snap h,
        fun _ h2 => hf00 hcomm0 h2,
        fun h1 _ => absurd h1 (by simp [committed]),
        fun _ h2 => hf01 hcomm0 h2,
        fun h1 _ => absurd h1 (by simp [committed])⟩
    · rw [phase_true] at hlocked
      rw [setPhase_true]
      have hcomm1 : ¬ committed s.th1 := by rw [hlocked]; simp [committed]
      exact ⟨hc0, fun _ => hlock,
        fun snap h => hl0 snap h,
        fun snap h => (GatePhase.loaded.inj h).symm,
        fun h1 _ => hf00 h1 hcomm1,
        fun h1 _ => hf10 h1 hcomm1,
        fun _ h2 => absurd h2 (by simp [committed]),
        fun _ h2 => absurd h2 (by simp [committed])⟩
  | persist i snap hlock hloaded =>
    cases i
    · rw [phase_false] at hloaded
      rw [setPhase_false]
      have hnc1 : ¬ inCritical s.th1 := fun h => by
        have := (hc1 h).symm.trans hlock
        simp at this
      have hsnap : snap = s.file := hl0 snap hloaded
      have hcomm0 : ¬ committed s.th0 := by rw [hloaded]; simp [committed]
      refine ⟨fun _ => hlock, fun h => absurd h hnc1, fun sn h => absurd h (by simp),
        fun sn h => absurd (show inCritical s.th1 from by rw [h]; trivial) hnc1,
        fun h1 _ => absurd (by trivial) h1,
        fun _ h2 => ?_,
        fun h1 _ => absurd (by trivial) h1,
        fun _ h2 => Or.inl ?_⟩
      · show m0 snap = m0 d
        rw [hsnap, hf00 hcomm0 h2]
      · show m0 snap = m0 (m1 d)
        rw [hsnap, hf01 hcomm0 h2]
    · rw [phase_true] at hloaded
      rw [setPhase_true]
      have hnc0 : ¬ inCritical s.th0 := fun h => by
        have := (hc0 h).symm.trans hlock
        simp at this
      have hsnap : snap = s.file := hl1 snap hloaded
      have hcomm1 : ¬ committed s.th1 := by rw [hloaded]; simp [committed]
      refine ⟨fun h => absurd h hnc0, fun _ => hlock,
        fun sn h => absurd (show inCritical s.th0 from by rw [h]; trivial) hnc0,
        fun sn h => absurd h (by simp),
        fun _ h2 => absurd (by trivial) h2,
        fun _ h2 => absurd (by trivial) h2,
        fun h1 _ => ?_,
        fun h1 _ => Or.inr ?_⟩
      · show m1 snap = m1 d
        rw [hsnap, hf00 h1 hcomm1]
      · show m1 snap = m1 (m0 d)
        rw [hsnap, hf10 h1 hcomm1]
  | release i hlock hpers =>
    cases i
    · rw [phase_false] at hpers
      rw [setPhase_false]
      have hnc1 : ¬ inCritical s.th1 := fun h => by
        have := (hc1 h).symm.trans hlock
        simp at this
      have hcomm0 : committed s.th0 := by rw [hpers]; trivial
      exact ⟨fun h => absurd h (by simp [inCritical]),
        fun h => absurd h hnc1,
        fun sn h => absurd h (by simp),
        fun sn h => absurd (show inCritical s.th1 from by rw [h]; trivial) hnc1,
        fun h1 _ => absurd (by trivial) h1,
        fun _ h2 => hf10 hcomm0 h2,
        fun h1 _ => absurd (by trivial) h1,
        fun _ h2 => hf11 hcomm0 h2⟩
    · rw [phase_true] at hpers
      rw [setPhase_true]
      have hnc0 : ¬ inCritical s.th0 := fun h => by
        have := (hc0 h).symm.trans hlock
        simp at this
      have hcomm1 : committed s.th1 := by rw [hpers]; trivial
      exact ⟨fun h => absurd h hnc0,
        fun h => absurd h (by simp [inCritical]),
        fun sn h => absurd (show inCritical s.th0 from by rw [h]; trivial) hnc0,
        fun sn h => absurd h (by simp),
        fun _ h2 => absurd (by trivial) h2,
        fun _ h2 => absurd (by trivial) h2,
        fun h1 _ => hf01 h1 hcomm1,
        fun h1 _ => hf11 h1 hcomm1⟩

theorem GateInv_reachable {m0 m1 : σ → σ} {d : σ} {s : GateState σ}
    (h : GateReachable m0 m1 d s) : GateInv m0 m1 d s := by
  induction h with
  | refl =>
    exact ⟨fun h => absurd h (by simp [gateInit, inCritical]),
      fun h => absurd h (by simp [gateInit, inCritical]),
      fun snap h => absurd h (by simp [gateInit]),
      fun snap h => absurd h (by simp [gateInit]),
      fun _ _ => rfl,
      fun h _ => absurd h (by simp [gateInit, committed]),
      fun _ h => absurd h (by simp [gateInit, committed]),
      fun h _ => absurd h (by simp [gateInit, committed])⟩
  | tail hsteps hstep ih => exact GateInv_step hstep ih

/-- Claim C9: interleaving two `update_store` calls, a thread must hold the
single global lock for the whole load → mutate → persist critical section,
so the two critical sections are mutually exclusive, and once both calls
have finished, the persisted document is one of the two serial compositions
of the mutations. -/
theorem gate_serializable {σ : Type} (m0 m1 : σ → σ) (d : σ) (s : GateState σ)
    (h : GateReachable m0 m1 d s) :
    (¬ (inCritical s.th0 ∧ inCritical s.th1))
    ∧ (s.th0 = .finished → s.th1 = .finished →
        s.file = m0 (m1 d) ∨ s.file = m1 (m0 d)) := by
  obtain ⟨hc0, hc1, _, _, _, _, _, hf11⟩ := GateInv_reachable h
  constructor
  · rintro ⟨h0, h1⟩
    have := (hc0 h0).symm.trans (hc1 h1)
    simp at this
  · intro h0 h1
    exact hf11 (by simp [committed, h0]) (by simp [committed, h1])

/-- The final state of a concrete run of two gate mutations on `Nat`. -/
def gateFinal : GateState Nat :=
  { lock := none, file := 8, th0 := .finished, th1 := .finished }

/-- Witness for `gate_serializable`: an explicit interleaving of the
mutations `n+1` (thread 0, first) and `n*2` (thread 1, second) starting from
document 3 ends with the serial result 8 = (3+1)*2. -/
theorem gate_serializable_witness :
    (¬ (inCritical gateFinal.th0 ∧ inCritical gateFinal.th1))
    ∧ (gateFinal.th0 = .finished → gateFinal.th1 = .finished →
        gateFinal.file = (fun n => n + 1) ((fun n : Nat => n * 2) 3) ∨
        gateFinal.file = (fun n => n * 2) ((fun n : Nat => n + 1) 3)) :=
  gate_serializable (fun n => n + 1) (fun n => n * 2) 3 gateFinal
    (Relation.ReflTransGen.tail
      (Relation.ReflTransGen.tail
        (Relation.ReflTransGen.tail
          (Relation.ReflTransGen.tail
            (Relation.ReflTransGen.tail
              (Relation.ReflTransGen.tail
                (Relation.ReflTransGen.tail
                  (Relation.ReflTransGen.tail Relation.ReflTransGen.refl
                    (GateStep.acquire (gateInit 3) false rfl rfl))
                  (GateStep.load ⟨some false, 3, .locked, .idle⟩ false rfl rfl))
                (GateStep.persist ⟨some false, 3, .loaded 3, .idle⟩ false 3 rfl
                  rfl))
              (GateStep.release ⟨some false, 4, .persisted, .idle⟩ false rfl
                rfl))
            (GateStep.acquire ⟨none, 4, .finished, .idle⟩ true rfl rfl))
          (GateStep.load ⟨some true, 4, .finished, .locked⟩ true rfl rfl))
        (GateStep.persist ⟨some true, 4, .finished, .loaded 4⟩ true 4 rfl rfl))
      (GateStep.release ⟨some true, 8, .finished, .persisted⟩ true rfl rfl))

end Tennis
